import Mathlib

/-!
Verification of the RepRapFirmware G-code `StringParser`
(src/GCodes/GCodeBuffer/StringParser.cpp) against its natural-language
specification.  The parser is shallowly embedded: bytes are natural numbers
0..255, the fixed line buffer is the list of bytes stored so far, fallible
operations return `Except ParseErr`, and the external collaborators
(machine state, object model, libc string-to-number routines) are modelled
explicitly.  All definitions are executable and structurally recursive.
-/

/-- C `isdigit` on a byte. -/
def isDigitB (c : Nat) : Bool := 48 ≤ c && c ≤ 57

/-- C `isalpha` on a byte (ASCII). -/
def isAlphaB (c : Nat) : Bool := (65 ≤ c && c ≤ 90) || (97 ≤ c && c ≤ 122)

/-- C `toupper` on a byte (ASCII). -/
def toUpperB (c : Nat) : Nat := if 97 ≤ c && c ≤ 122 then c - 32 else c

/-- C `tolower` on a byte (ASCII). -/
def toLowerB (c : Nat) : Nat := if 65 ≤ c && c ≤ 90 then c + 32 else c

/-- Reading `gb.buffer[i]`: the model keeps the written prefix of the fixed
    array as a list; the terminating NUL written by `LineFinished` and
    anything beyond it reads as 0. -/
def bufGet (buf : List Nat) (i : Nat) : Nat := buf.getD i 0

/-- The bytes of buffer positions `[a, b)`. -/
def bufSlice (buf : List Nat) (a b : Nat) : List Nat :=
  (List.range (b - a)).map (fun k => bufGet buf (a + k))

/-- `GCodeBufferState` from GCodeBuffer.h, as used by the string parser. -/
inductive GBState where
  | parseNotStarted
  | parsingLineNumber
  | parsingWhitespace
  | parsingGCode
  | parsingBracketedComment
  | parsingQuotedString
  | parsingChecksum
  | discarding
  | ready
deriving DecidableEq, Repr

/-- A lexical block frame of the machine state (`BlockState`).
    Modelled from the spec: variant of PlainBlock, IfTrueBlock,
    IfFalseBlock, LoopBlock with file position and line number. -/
inductive Block where
  | plain
  | ifTrue
  | ifFalse
  | loop (filePos : Nat) (lineNumber : Nat)
deriving DecidableEq, Repr

/-- Machine type, for the Fanuc fallback (`MachineType::cnc`). -/
inductive MachineType where
  | fff
  | cnc
  | laser
deriving DecidableEq, Repr

/-- The value variants produced by the object model (`ExpressionValue`).
    Floats are modelled as exact rationals. -/
inductive ExprVal where
  | float (q : ℚ)
  | float2 (q : ℚ)
  | float3 (q : ℚ)
  | int (v : Int)
  | uint (v : Nat)
  | bool (b : Bool)
  | str (s : List Nat)
  | ipv4 (v : Nat)
deriving DecidableEq, Repr

/-- A driver identifier (`DriverId`).  Modelled from the spec: board
    address and local driver, both bytes. -/
structure DriverId where
  boardAddress : Nat
  localDriver : Nat
deriving DecidableEq, Repr

/-- The error kinds thrown via `ConstructParseException` /
    `THROW_INTERNAL_ERROR` in StringParser.cpp. -/
inductive ParseErr where
  | internalError
  | controlCharInString
  | nonEmptyStringExpected
  | stringExpected
  | stringExpressionExpected
  | invalidIP
  | invalidMAC
  | arrayTooLong (maxLen : Nat)
  | expectedFloat
  | expectedInteger
  | expectedNonNegative
  | valueMustBeNonNegative
  | expectedCloseBrace
  | expectedVariableName
  | variableNameTooLong
  | stringValueExpected
  | elseWithoutIf
  | breakNotInLoop
  | notImplementedVar
  | conditionEvaluationFailed (keyword : String)
  | tooManyDigits
deriving DecidableEq, Repr

/-- The fields of `StringParser` (and the per-command view) that the
    embedded operations read and write. -/
structure PState where
  buffer : List Nat
  gcodeLineEnd : Nat
  commandLength : Nat
  readPointer : Int
  hadLineNumber : Bool
  receivedLineNumber : Nat
  hadChecksum : Bool
  declaredChecksum : Nat
  computedChecksum : Nat
  commandIndent : Nat
  bufferState : GBState
  commandStart : Nat
  parameterStart : Nat
  commandEnd : Nat
  commandLetter : Nat
  hasCommandNumber : Bool
  commandNumber : Int
  commandFraction : Int
  indentToSkipTo : Option Nat
  checksumRequired : Bool
deriving DecidableEq, Repr

/-- The fields of the external `GCodeMachineState` the parser touches.
    Modelled from the spec: the machine state owns the ordered sequence of
    block frames (head = current block; the base frame at indent level 0 is
    the last element), the G-code line number, whether we execute from a
    file, whether this is the outermost scope (`previous == nullptr`), and
    the file-reader position data used by `GetFilePosition` /
    `RestartFrom`. -/
structure MState where
  lineNumber : Nat
  blocks : List Block
  doingFile : Bool
  previousIsNull : Bool
  g53Active : Bool
  fileRawPos : Nat
  bytesCached : Nat
  fileRewindTo : Option Nat
deriving DecidableEq, Repr

/-- Build-time configuration and external collaborators consumed by the
    parser: the line-buffer capacity `ARRAY_SIZE(gb.buffer)`, the axis
    letters and machine type (Fanuc fallback), CAN expansion (DriverId
    shape), the variable-name capacity, and the object-model lookup
    `reprap.GetObjectValue`. -/
structure Env where
  bufSize : Nat
  axisLetters : List Nat
  machineType : MachineType
  supportCan : Bool
  maxVarNameLength : Nat
  resolve : List Nat → ExprVal

/-- `indentLevel` of the machine state: the number of frames above the
    base frame. -/
def msIndent (ms : MState) : Nat := ms.blocks.length - 1

/-- `CurrentBlockState()`. -/
def currentBlock (ms : MState) : Block := ms.blocks.headD .plain

/-- Overwrite the current (topmost) block frame. -/
def setCurrentBlock (ms : MState) (b : Block) : MState :=
  { ms with blocks := b :: ms.blocks.tail }

/-- `StringParser::Init()`: reset the per-line state (the persistent fields
    `indentToSkipTo`, `checksumRequired` and the last decoded command view
    are kept, exactly as in the source). -/
def pInit (st : PState) : PState :=
  { st with
    buffer := []
    gcodeLineEnd := 0
    commandLength := 0
    readPointer := -1
    hadLineNumber := false
    hadChecksum := false
    computedChecksum := 0
    bufferState := .parseNotStarted
    commandIndent := 0 }

/-- The parser state right after construction (the constructor sets
    `commandLetter = 'Q'`, `hasCommandNumber = false`,
    `checksumRequired = false`, no indent skip, then calls `Init()`). -/
def initPState : PState :=
  pInit
    { buffer := []
      gcodeLineEnd := 0
      commandLength := 0
      readPointer := -1
      hadLineNumber := false
      receivedLineNumber := 0
      hadChecksum := false
      declaredChecksum := 0
      computedChecksum := 0
      commandIndent := 0
      bufferState := .parseNotStarted
      commandStart := 0
      parameterStart := 0
      commandEnd := 0
      commandLetter := 81
      hasCommandNumber := false
      commandNumber := -1
      commandFraction := -1
      indentToSkipTo := none
      checksumRequired := false }

/-- `AddToChecksum`: XOR the byte (as `uint8_t`) into the running checksum. -/
def addToChecksum (st : PState) (c : Nat) : PState :=
  { st with computedChecksum := st.computedChecksum ^^^ (c % 256) }

/-- `StoreAndAddToChecksum`: XOR into the checksum and append to the buffer
    unless the line buffer is full. -/
def storeAndAddToChecksum (env : Env) (st : PState) (c : Nat) : PState :=
  let st := addToChecksum st c
  if st.gcodeLineEnd < env.bufSize then
    { st with buffer := st.buffer ++ [c], gcodeLineEnd := st.gcodeLineEnd + 1 }
  else st

/-- The `parsingGCode` row of the ingest state machine. -/
def handleCode (env : Env) (st : PState) (c : Nat) : PState :=
  if c = 42 then
    { st with declaredChecksum := 0, hadChecksum := true, bufferState := .parsingChecksum }
  else if c = 59 then
    { st with bufferState := .discarding }
  else if c = 40 then
    { addToChecksum st c with bufferState := .parsingBracketedComment }
  else if c = 34 then
    { storeAndAddToChecksum env st c with bufferState := .parsingQuotedString }
  else
    storeAndAddToChecksum env st c

/-- The `parsingWhitespace` row; a non-whitespace byte is reprocessed in
    the `parsingGCode` state (the `again` loop of the source). -/
def handleWhitespace (env : Env) (st : PState) (c : Nat) : PState :=
  if c = 32 || c = 9 then addToChecksum st c
  else handleCode env { st with bufferState := .parsingGCode, commandStart := 0 } c

/-- The `parseNotStarted` row. -/
def handleNotStarted (env : Env) (st : PState) (c : Nat) : PState :=
  if c = 78 || c = 110 then
    { addToChecksum st c with
      hadLineNumber := true
      bufferState := .parsingLineNumber
      receivedLineNumber := 0 }
  else if c = 32 || c = 9 then
    { addToChecksum st c with commandIndent := st.commandIndent + 1 }
  else handleCode env { st with bufferState := .parsingGCode, commandStart := 0 } c

/-- The `parsingLineNumber` row (`receivedLineNumber` is a `uint32_t`). -/
def handleLineNumber (env : Env) (st : PState) (c : Nat) : PState :=
  if isDigitB c then
    { addToChecksum st c with
      receivedLineNumber := (10 * st.receivedLineNumber + (c - 48)) % 2 ^ 32 }
  else handleWhitespace env { st with bufferState := .parsingWhitespace } c

/-- The `parsingChecksum` row (`declaredChecksum` is a `uint8_t`); a
    non-digit moves to `discarding` and the byte is dropped there. -/
def handleChecksum (st : PState) (c : Nat) : PState :=
  if isDigitB c then
    { st with declaredChecksum := (10 * st.declaredChecksum + (c - 48)) % 256 }
  else { st with bufferState := .discarding }

/-- One step of the ingest state machine of `Put` for a non-terminator
    byte (the `do { ... } while (again)` loop, with reprocessing compiled
    into the row handlers). -/
def putSM (env : Env) (st : PState) (c : Nat) : PState :=
  match st.bufferState with
  | .parseNotStarted => handleNotStarted env st c
  | .parsingLineNumber => handleLineNumber env st c
  | .parsingWhitespace => handleWhitespace env st c
  | .parsingGCode => handleCode env st c
  | .parsingBracketedComment =>
      let st := addToChecksum st c
      if c = 41 then { st with bufferState := .parsingGCode } else st
  | .parsingQuotedString =>
      let st := storeAndAddToChecksum env st c
      if c = 34 then { st with bufferState := .parsingGCode } else st
  | .parsingChecksum => handleChecksum st c
  | .discarding => st
  | .ready => st

/-- `Put(c)` for a non-terminator byte: count it, resynchronise on the
    0x7F framing marker, then run the state machine. -/
def feedByte (env : Env) (st : PState) (c : Nat) : PState :=
  let st := { st with commandLength := st.commandLength + 1 }
  let st :=
    if c = 127 && !(st.bufferState = .discarding) then
      { st with gcodeLineEnd := 0, buffer := [], bufferState := .discarding }
    else st
  putSM env st c

/-- Feed a list of non-terminator bytes one at a time. -/
def feedList (env : Env) (st : PState) (bs : List Nat) : PState :=
  bs.foldl (feedByte env) st

/-- `CreateBlocks`: push empty plain frames until the machine indent level
    reaches the line's indent. -/
def createBlocks (ci : Nat) (ms : MState) : MState :=
  { ms with blocks := List.replicate (ci - msIndent ms) Block.plain ++ ms.blocks }

/-- The pop loop of `EndBlocks`, on the block stack (head = current).
    Returns (line swallowed?, new line number, rewind position, stack). -/
def endBlocksAux (ci : Nat) (lineNo : Nat) : List Block → Bool × Nat × Option Nat × List Block
  | [] => (false, lineNo, none, [])
  | b :: rest =>
      if rest.length > ci then
        match rest.headD Block.plain with
        | .loop fp ln => (true, ln, some fp, rest)
        | _ => endBlocksAux ci lineNo rest
      else (false, lineNo, none, b :: rest)

/-- `EndBlocks`: pop frames while the indent level exceeds the line's
    indent; on popping into a loop frame, reposition the file reader
    (`gb.RestartFrom`) and report the line as swallowed. -/
def endBlocks (ci : Nat) (ms : MState) : Bool × MState :=
  match endBlocksAux ci ms.lineNumber ms.blocks with
  | (sw, ln, rw, blks) =>
    (sw, { ms with
           lineNumber := ln
           blocks := blks
           fileRewindTo := (match rw with | some p => some p | none => ms.fileRewindTo) })

/-- `GetFilePosition`: position of the first byte of the current command
    in the source file, or the no-file sentinel. -/
def getFilePosition (ms : MState) (st : PState) : Nat :=
  if ms.doingFile then ms.fileRawPos - ms.bytesCached - st.commandLength + st.commandStart
  else 4294967295

/-- `EvaluateCondition`: unimplemented in the source, it always throws. -/
def evaluateCondition (keyword : String) : Except ParseErr Bool :=
  .error (.conditionEvaluationFailed keyword)

/-- `ProcessIfCommand`. -/
def processIfCommand (st : PState) (ms : MState) : Except ParseErr (PState × MState) :=
  match evaluateCondition "if" with
  | .error e => .error e
  | .ok c =>
    if c then .ok (st, setCurrentBlock ms .ifTrue)
    else .ok ({ st with indentToSkipTo := some (msIndent ms) }, setCurrentBlock ms .ifFalse)

/-- `ProcessElseCommand`. -/
def processElseCommand (skippedIfFalse : Bool) (st : PState) (ms : MState) :
    Except ParseErr (PState × MState) :=
  if skippedIfFalse then .ok (st, setCurrentBlock ms .plain)
  else if currentBlock ms = .ifTrue then
    .ok ({ st with indentToSkipTo := some (msIndent ms) }, ms)
  else .error .elseWithoutIf

/-- `ProcessWhileCommand`. -/
def processWhileCommand (st : PState) (ms : MState) : Except ParseErr (PState × MState) :=
  match evaluateCondition "while" with
  | .error e => .error e
  | .ok c =>
    if c then
      .ok (st, setCurrentBlock ms (.loop (getFilePosition ms st) ms.lineNumber))
    else .ok ({ st with indentToSkipTo := some (msIndent ms) }, ms)

/-- The pop loop of `ProcessBreakCommand`: pop until the current frame is
    a loop (error on reaching indent level 0), then set it to plain. -/
def processBreakAux : List Block → Except ParseErr (List Block)
  | [] => .error .breakNotInLoop
  | [_] => .error .breakNotInLoop
  | _ :: c :: rest =>
      match c with
      | .loop _ _ => .ok (Block.plain :: rest)
      | _ => processBreakAux (c :: rest)

/-- `ProcessBreakCommand`. -/
def processBreakCommand (st : PState) (ms : MState) : Except ParseErr (PState × MState) :=
  match processBreakAux ms.blocks with
  | .error e => .error e
  | .ok blks => .ok (st, { ms with blocks := blks })

/-- `ProcessVarCommand`: not implemented in the source. -/
def processVarCommand (_st : PState) (_ms : MState) : Except ParseErr (PState × MState) :=
  .error .notImplementedVar

/-- The keyword counter of `ProcessConditionalGCode`: the number of leading
    lowercase letters of the buffer, capped at 6. -/
def countLowercase (buf : List Nat) : Nat :=
  min (buf.takeWhile (fun c => 97 ≤ c && c ≤ 122)).length 6

/-- `StringStartsWith` on byte lists. -/
def startsWithB (s p : List Nat) : Bool := p.isPrefixOf s

/-- The keyword dispatch part of `ProcessConditionalGCode` (after block
    creation/ending).  Note: the source takes the candidate word at
    `&gb.buffer[commandIndent]` although the buffer does not store the
    indentation. -/
def dispatchKeyword (st : PState) (ms : MState) (skippedIfFalse : Bool) :
    Except ParseErr (Bool × PState × MState) :=
  let i := countLowercase st.buffer
  if 2 ≤ i && i < 6 &&
      (bufGet st.buffer i = 0 || bufGet st.buffer i = 32 || bufGet st.buffer i = 9) then
    let command := st.buffer.drop st.commandIndent
    let wrap : Except ParseErr (PState × MState) → Except ParseErr (Bool × PState × MState) :=
      fun r => match r with
        | .error e => .error e
        | .ok (st, ms) => .ok (true, st, ms)
    match i with
    | 2 =>
        if startsWithB command [105, 102] then wrap (processIfCommand st ms)
        else .ok (false, st, ms)
    | 3 =>
        if startsWithB command [118, 97, 114] then wrap (processVarCommand st ms)
        else .ok (false, st, ms)
    | 4 =>
        if startsWithB command [101, 108, 115, 101] then
          wrap (processElseCommand skippedIfFalse st ms)
        else .ok (false, st, ms)
    | 5 =>
        if startsWithB command [119, 104, 105, 108, 101] then wrap (processWhileCommand st ms)
        else if startsWithB command [98, 114, 101, 97, 107] then
          wrap (processBreakCommand st ms)
        else .ok (false, st, ms)
    | _ => .ok (false, st, ms)
  else .ok (false, st, ms)

/-- `ProcessConditionalGCode`: adjust the block stack for the line's
    indent, then recognise and execute a control keyword.  Returns `true`
    iff the line was consumed. -/
def processConditionalGCode (st : PState) (ms : MState) (skippedIfFalse : Bool) :
    Except ParseErr (Bool × PState × MState) :=
  if st.commandIndent > msIndent ms then
    dispatchKeyword st (createBlocks st.commandIndent ms) skippedIfFalse
  else if st.commandIndent < msIndent ms then
    match endBlocks st.commandIndent ms with
    | (true, ms) => .ok (true, st, ms)
    | (false, ms) => dispatchKeyword st ms skippedIfFalse
  else dispatchKeyword st ms skippedIfFalse

/-- Did `strchr(s, c)` find `c`?  Per the C semantics the terminating NUL
    is part of the searched string, so `c = 0` is always found. -/
def strchrFound (s : List Nat) (c : Nat) : Bool :=
  if c = 0 then true else s.contains c

/-- The sub-command boundary scan of `DecodeCommand`: starting from the
    parameter start, an unquoted `G`/`M` primed by a preceding space or tab
    ends the current command.  The list argument carries the bytes of
    positions `[i, gcodeLineEnd)`. -/
def findCommandEnd : List Nat → Nat → Bool → Bool → Nat
  | [], i, _, _ => i
  | c :: rest, i, inQuotes, primed =>
      if c = 34 then findCommandEnd rest (i + 1) (!inQuotes) false
      else if !inQuotes && primed && (toUpperB c = 71 || toUpperB c = 77) then i
      else if inQuotes then findCommandEnd rest (i + 1) inQuotes primed
      else findCommandEnd rest (i + 1) inQuotes (c = 32 || c = 9)

/-- `DecodeCommand`: read the command letter, number and fraction, locate
    the end of the command, or apply the Fanuc fallback / mark the command
    invalid. -/
def decodeCommand (env : Env) (st : PState) : PState :=
  let cl := toUpperB (bufGet st.buffer st.commandStart)
  let st := { st with commandFraction := -1 }
  if cl = 71 || cl = 77 || cl = 84 then
    let st := { st with commandLetter := cl, hasCommandNumber := false, commandNumber := -1 }
    let ps := st.commandStart + 1
    let negative := bufGet st.buffer ps = 45
    let ps := if negative then ps + 1 else ps
    let st :=
      if isDigitB (bufGet st.buffer ps) then
        let digits := (st.buffer.drop ps).takeWhile isDigitB
        let n : Int := digits.foldl (fun a d => 10 * a + ((d : Int) - 48)) 0
        let ps := ps + digits.length
        let st := { st with hasCommandNumber := true,
                            commandNumber := if negative then -n else n,
                            parameterStart := ps }
        if bufGet st.buffer ps = 46 then
          let ps := ps + 1
          if isDigitB (bufGet st.buffer ps) then
            { st with commandFraction := (bufGet st.buffer ps : Int) - 48,
                      parameterStart := ps + 1 }
          else { st with parameterStart := ps }
        else st
      else { st with parameterStart := ps }
    let ce := findCommandEnd (bufSlice st.buffer st.parameterStart st.gcodeLineEnd)
                st.parameterStart false false
    { st with commandEnd := ce, bufferState := .ready }
  else if st.hasCommandNumber && st.commandLetter = 71 && st.commandNumber ≤ 3 &&
          (strchrFound env.axisLetters cl ||
            ((cl = 73 || cl = 74) && st.commandNumber ≥ 2)) &&
          env.machineType = .cnc then
    { st with parameterStart := st.commandStart, commandEnd := st.gcodeLineEnd,
              bufferState := .ready }
  else
    { st with commandLetter := cl, hasCommandNumber := false, commandNumber := -1,
              commandFraction := -1, parameterStart := st.commandStart,
              commandEnd := st.gcodeLineEnd, bufferState := .ready }

/-- The bytes of the decimal digits of `n`. -/
def natDigits (n : Nat) : List Nat := (Nat.toDigits 10 n).map Char.toNat

/-- The bytes `SafeSnprintf(gb.buffer, ..., "M998 P%u", n)` writes
    (truncation to the capacity is applied by the caller). -/
def m998Bytes (n : Nat) : List Nat := [77, 57, 57, 56, 32, 80] ++ natDigits n

/-- `LineFinished`, reached when `Put` is fed NUL, CR or LF: validate
    length and checksum, update the machine line number, hand the line to
    the block controller when executing from a file, then decode it. -/
def lineFinished (env : Env) (st : PState) (ms : MState) :
    Except ParseErr (Bool × PState × MState) :=
  if st.gcodeLineEnd = 0 then .ok (false, pInit st, ms)
  else if st.gcodeLineEnd = env.bufSize then .ok (false, pInit st, ms)
  else
    let badChecksum := st.hadChecksum && !(st.computedChecksum = st.declaredChecksum)
    let missingChecksum := st.checksumRequired && !st.hadChecksum && ms.previousIsNull
    if badChecksum && !st.hadLineNumber then .ok (false, pInit st, ms)
    else if !badChecksum && missingChecksum then .ok (false, pInit st, ms)
    else
      let st :=
        if badChecksum then
          { st with buffer := (m998Bytes st.receivedLineNumber).take (env.bufSize - 1) }
        else st
      let ms :=
        if st.hadLineNumber then { ms with lineNumber := st.receivedLineNumber }
        else { ms with lineNumber := (ms.lineNumber + 1) % 2 ^ 32 }
      if ms.doingFile then
        let skippingDeeper : Bool :=
          match st.indentToSkipTo with
          | some k => decide (k < st.commandIndent)
          | none => false
        if skippingDeeper then
          .ok (false, pInit st, ms)
        else
          let skippedIfFalse :=
            match st.indentToSkipTo with
            | some k => k = st.commandIndent && (currentBlock ms = Block.ifFalse)
            | none => false
          let ms :=
            match st.indentToSkipTo with
            | some k => if k = st.commandIndent then setCurrentBlock ms .plain else ms
            | none => ms
          let st :=
            match st.indentToSkipTo with
            | some _ => { st with indentToSkipTo := none }
            | none => st
          match processConditionalGCode st ms skippedIfFalse with
          | .error e => .error e
          | .ok (true, st, ms) => .ok (false, pInit st, ms)
          | .ok (false, st, ms) =>
              .ok (true, decodeCommand env { st with commandStart := 0 }, ms)
      else .ok (true, decodeCommand env { st with commandStart := 0 }, ms)

/-- `Put(char c)`: a NUL, LF or CR finishes the line, any other byte is
    fed to the ingest state machine. -/
def putByte (env : Env) (st : PState) (ms : MState) (c : Nat) :
    Except ParseErr (Bool × PState × MState) :=
  if c = 0 then lineFinished env st ms
  else if c = 10 || c = 13 then
    lineFinished env { st with commandLength := st.commandLength + 1 } ms
  else .ok (false, feedByte env st c, ms)

/-- Feed a sequence of bytes through `Put`, stopping as soon as a command
    is ready (the loop of `Put(const char*, size_t)`). -/
def putAll (env : Env) (st : PState) (ms : MState) : List Nat →
    Except ParseErr (Bool × PState × MState)
  | [] => .ok (false, st, ms)
  | c :: rest =>
      match putByte env st ms c with
      | .error e => .error e
      | .ok (true, st, ms) => .ok (true, st, ms)
      | .ok (false, st, ms) => putAll env st ms rest

/-- The readiness flag of a `Put` result, when no error was raised. -/
def readyFlag (r : Except ParseErr (Bool × PState × MState)) : Option Bool :=
  match r with
  | .ok (b, _, _) => some b
  | .error _ => none

/-- The scan loop of `Seen`: `k` counts the remaining positions of
    `[rp, commandEnd)` (the loop advances by exactly one position per
    iteration), returning the final `readPointer` on a match. -/
def seenAux (buf : List Nat) (ps : Nat) (c : Nat) :
    Nat → Nat → Bool → Nat → Option Nat
  | 0, _, _, _ => none
  | k + 1, rp, inQuotes, inBrackets =>
      let b := bufGet buf rp
      if b = 34 then seenAux buf ps c k (rp + 1) (!inQuotes) inBrackets
      else if inQuotes then seenAux buf ps c k (rp + 1) inQuotes inBrackets
      else if inBrackets = 0 && toUpperB b = c &&
              (!(c = 69) || rp = ps || !isDigitB (bufGet buf (rp - 1))) then
        some (rp + 1)
      else if b = 123 then seenAux buf ps c k (rp + 1) inQuotes (inBrackets + 1)
      else if b = 125 && !(inBrackets = 0) then
        seenAux buf ps c k (rp + 1) inQuotes (inBrackets - 1)
      else seenAux buf ps c k (rp + 1) inQuotes inBrackets

/-- `Seen(c)`: scan `[parameterStart, commandEnd)` for an unquoted,
    unbracketed occurrence of the (uppercase) letter `c`; position
    `readPointer` one past it, or set it to -1 on a miss. -/
def seen (st : PState) (c : Nat) : Bool × PState :=
  match seenAux st.buffer st.parameterStart c (st.commandEnd - st.parameterStart)
      st.parameterStart false 0 with
  | some rp => (true, { st with readPointer := (rp : Int) })
  | none => (false, { st with readPointer := -1 })

/-- Leading-whitespace skip of the libc number parsers. -/
def skipWs (buf : List Nat) (rp : Nat) : Nat :=
  rp + ((buf.drop rp).takeWhile (fun c => c = 32 || c = 9)).length

/-- Is `c` a digit of the given numeric base (10 or 16)? -/
def isBaseDigit (base : Nat) (c : Nat) : Bool :=
  if base = 16 then
    isDigitB c || (97 ≤ c && c ≤ 102) || (65 ≤ c && c ≤ 70)
  else isDigitB c

/-- The numeric value of one digit byte. -/
def digitVal (c : Nat) : Nat :=
  if 97 ≤ c && c ≤ 102 then c - 87
  else if 65 ≤ c && c ≤ 70 then c - 55
  else c - 48

/-- The value of a digit string in the given base. -/
def digitsVal (base : Nat) (ds : List Nat) : Nat :=
  ds.foldl (fun a d => base * a + digitVal d) 0

/-- Modelled from the spec: `SafeStrtoul`, a `strtoul`-equivalent (the
    function lives in the RRFLibraries submodule, not under src/).  Skips
    leading whitespace and reads digits of the base; returns the value and
    the end position (the start position when nothing was converted). -/
def safeStrtoul (buf : List Nat) (rp : Nat) (base : Nat) : Nat × Nat :=
  let p := skipWs buf rp
  let ds := (buf.drop p).takeWhile (isBaseDigit base)
  if ds = [] then (0, rp) else (digitsVal base ds, p + ds.length)

/-- Modelled from the spec: `SafeStrtol`, a `strtol`-equivalent: optional
    sign, then decimal digits. -/
def safeStrtol (buf : List Nat) (rp : Nat) : Int × Nat :=
  let p := skipWs buf rp
  let neg := bufGet buf p = 45
  let p1 := if neg || bufGet buf p = 43 then p + 1 else p
  let ds := (buf.drop p1).takeWhile isDigitB
  if ds = [] then (0, rp)
  else (if neg then -(digitsVal 10 ds : Int) else (digitsVal 10 ds : Int), p1 + ds.length)

/-- Modelled from the spec: `SafeStrtof`, a `strtof`-equivalent for
    decimal text (sign, integer digits, optional fraction, optional
    exponent), with the value kept exact as a rational.  Returns the value
    and the end position (the start position when nothing was converted). -/
def safeStrtof (buf : List Nat) (rp : Nat) : ℚ × Nat :=
  let p := skipWs buf rp
  let neg := bufGet buf p = 45
  let p1 := if neg || bufGet buf p = 43 then p + 1 else p
  let ip := (buf.drop p1).takeWhile isDigitB
  let p2 := p1 + ip.length
  let fp :=
    if bufGet buf p2 = 46 then (buf.drop (p2 + 1)).takeWhile isDigitB else []
  let p3 := if bufGet buf p2 = 46 then p2 + 1 + fp.length else p2
  if ip = [] && fp = [] then (0, rp)
  else
    let m : Int := (digitsVal 10 ip : Int) * 10 ^ fp.length + (digitsVal 10 fp : Int)
    let m := if neg then -m else m
    if bufGet buf p3 = 101 || bufGet buf p3 = 69 then
      let eneg := bufGet buf (p3 + 1) = 45
      let q := if eneg || bufGet buf (p3 + 1) = 43 then p3 + 2 else p3 + 1
      let eds := (buf.drop q).takeWhile isDigitB
      if eds = [] then (Rat.divInt m ((10 : Int) ^ fp.length), p3)
      else
        let e := digitsVal 10 eds
        if eneg then
          (Rat.divInt m ((10 : Int) ^ fp.length * (10 : Int) ^ e), q + eds.length)
        else
          (Rat.divInt (m * (10 : Int) ^ e) ((10 : Int) ^ fp.length), q + eds.length)
    else (Rat.divInt m ((10 : Int) ^ fp.length), p3)

/-- The identifier scan of `EvaluateExpression`: letters, digits, `_`,
    `.` and balanced parentheses; returns the end position and the
    terminating byte.  The list argument carries the bytes from the
    current position. -/
def varNameScan : List Nat → Nat → Nat → Nat × Nat
  | [], rp, _ => (rp, 0)
  | c :: rest, rp, nb =>
      if isAlphaB c || isDigitB c || c = 95 || c = 46 || c = 40 || (c = 41 && !(nb = 0)) then
        varNameScan rest (rp + 1) (if c = 40 then nb + 1 else if c = 41 then nb - 1 else nb)
      else (rp, c)

/-- `EvaluateExpression`: entered with the current byte at the `{`; skip
    it, read a variable name, resolve it through the object model and
    require a closing `}`. -/
def evaluateExpression (env : Env) (buf : List Nat) (rp : Nat) :
    Except ParseErr (ExprVal × Nat) :=
  let rp := rp + 1
  if isAlphaB (bufGet buf rp) then
    let start := rp
    match varNameScan (buf.drop rp) rp 0 with
    | (rpEnd, c) =>
      if rpEnd - start > env.maxVarNameLength then .error .variableNameTooLong
      else
        let val := env.resolve (bufSlice buf start rpEnd)
        if !(c = 125) then .error .expectedCloseBrace
        else .ok (val, rpEnd + 1)
  else .error .expectedVariableName

/-- `ReadFloatValue`: note the pre-increment of `readPointer` before the
    `{` test and before `SafeStrtof` (whose end pointer is discarded). -/
def readFloatValue (env : Env) (buf : List Nat) (rp : Nat) :
    Except ParseErr (ℚ × Nat) :=
  let rp := rp + 1
  if bufGet buf rp = 123 then
    let rp := rp + 1
    match evaluateExpression env buf rp with
    | .error e => .error e
    | .ok (val, rp) =>
      match val with
      | .float q => .ok (q, rp)
      | .int v => .ok (Rat.divInt v 1, rp)
      | .uint v => .ok (Rat.divInt (v : Int) 1, rp)
      | _ => .error .expectedFloat
  else .ok ((safeStrtof buf rp).1, rp)

/-- `ReadUIValue`: expression path, or quoted/unquoted decimal and hex
    text via `SafeStrtoul`, advancing `readPointer` past the number (and a
    trailing quote). -/
def readUIValue (env : Env) (buf : List Nat) (rp : Nat) :
    Except ParseErr (Nat × Nat) :=
  if bufGet buf rp = 123 then
    match evaluateExpression env buf rp with
    | .error e => .error e
    | .ok (val, rp) =>
      match val with
      | .uint v => .ok (v, rp)
      | .int v => if v ≥ 0 then .ok (v.toNat, rp) else .error .valueMustBeNonNegative
      | _ => .error .expectedNonNegative
  else
    let startQuoted := bufGet buf rp = 34
    let rp1 := if startQuoted then rp + 1 else rp
    let hexX := startQuoted && (bufGet buf rp1 = 120 || bufGet buf rp1 = 88)
    let hex0x := startQuoted && !hexX && bufGet buf rp1 = 48 &&
      (bufGet buf (rp1 + 1) = 120 || bufGet buf (rp1 + 1) = 88)
    let base := if hexX || hex0x then 16 else 10
    let rp2 := if hexX then rp1 + 1 else if hex0x then rp1 + 2 else rp1
    let skipTrailingQuote := if startQuoted then 1 else 0
    match safeStrtoul buf rp2 base with
    | (v, endRp) => .ok (v, endRp + skipTrailingQuote)

/-- Two's-complement reinterpretation `(int32_t)` of a `uint32_t`. -/
def castU32toI32 (u : Nat) : Int :=
  if u % 2 ^ 32 < 2 ^ 31 then ((u % 2 ^ 32 : Nat) : Int)
  else ((u % 2 ^ 32 : Nat) : Int) - 2 ^ 32

/-- `ReadIValue`: expression path or `SafeStrtol`. -/
def readIValue (env : Env) (buf : List Nat) (rp : Nat) :
    Except ParseErr (Int × Nat) :=
  if bufGet buf rp = 123 then
    match evaluateExpression env buf rp with
    | .error e => .error e
    | .ok (val, rp) =>
      match val with
      | .int v => .ok (v, rp)
      | .uint v => .ok (castU32toI32 v, rp)
      | _ => .error .expectedInteger
  else
    match safeStrtol buf rp with
    | (v, endRp) => .ok (v, endRp)

/-- `ReadDriverIdValue`: one unsigned value, or two separated by `.` when
    CAN expansion is enabled (fields truncate to bytes). -/
def readDriverIdValue (env : Env) (buf : List Nat) (rp : Nat) :
    Except ParseErr (DriverId × Nat) :=
  match readUIValue env buf rp with
  | .error e => .error e
  | .ok (v1, rp) =>
    if env.supportCan then
      if bufGet buf rp = 46 then
        match readUIValue env buf (rp + 1) with
        | .error e => .error e
        | .ok (v2, rp) =>
            .ok ({ boardAddress := v1 % 256, localDriver := v2 % 256 }, rp)
      else .ok ({ boardAddress := 0, localDriver := v1 % 256 }, rp)
    else .ok ({ boardAddress := 0, localDriver := v1 % 256 }, rp)

/-- `GetFValue`: requires a pending read, reads a float, resets the
    cursor. -/
def getFValue (env : Env) (st : PState) : Except ParseErr (ℚ × PState) :=
  if st.readPointer > 0 then
    match readFloatValue env st.buffer st.readPointer.toNat with
    | .error e => .error e
    | .ok (v, _) => .ok (v, { st with readPointer := -1 })
  else .error .internalError

/-- `GetIValue`. -/
def getIValue (env : Env) (st : PState) : Except ParseErr (Int × PState) :=
  if st.readPointer > 0 then
    match readIValue env st.buffer st.readPointer.toNat with
    | .error e => .error e
    | .ok (v, _) => .ok (v, { st with readPointer := -1 })
  else .error .internalError

/-- `GetUIValue`. -/
def getUIValue (env : Env) (st : PState) : Except ParseErr (Nat × PState) :=
  if st.readPointer > 0 then
    match readUIValue env st.buffer st.readPointer.toNat with
    | .error e => .error e
    | .ok (v, _) => .ok (v, { st with readPointer := -1 })
  else .error .internalError

/-- `GetDriverId`. -/
def getDriverId (env : Env) (st : PState) : Except ParseErr (DriverId × PState) :=
  if st.readPointer > 0 then
    match readDriverIdValue env st.buffer st.readPointer.toNat with
    | .error e => .error e
    | .ok (v, _) => .ok (v, { st with readPointer := -1 })
  else .error .internalError

/-- The common loop of the array getters: read an element, stop unless the
    next byte is the list separator `:`.  The fuel argument is
    `capacity - elements read so far`; it hits 0 exactly when the source
    raises `array too long`. -/
def getArrayAux {α : Type} (rd : List Nat → Nat → Except ParseErr (α × Nat))
    (buf : List Nat) (cap : Nat) :
    Nat → Nat → List α → Except ParseErr (List α × Nat)
  | 0, _, _ => .error (.arrayTooLong cap)
  | fuel + 1, rp, acc =>
      match rd buf rp with
      | .error e => .error e
      | .ok (v, rp) =>
          if bufGet buf rp = 58 then getArrayAux rd buf cap fuel (rp + 1) (acc ++ [v])
          else .ok (acc ++ [v], rp)

/-- The pad step shared by the float/int/uint array getters: broadcast a
    single element when `doPad` and more than one was requested, else
    report the parsed length. -/
def padArray {α : Type} (dflt : α) (cap : Nat) (doPad : Bool) (vs : List α) :
    List α × Nat :=
  if doPad && vs.length = 1 && cap > 1 then (List.replicate cap (vs.headD dflt), cap)
  else (vs, vs.length)

/-- `GetFloatArray`. -/
def getFloatArray (env : Env) (st : PState) (cap : Nat) (doPad : Bool) :
    Except ParseErr (List ℚ × Nat × PState) :=
  if st.readPointer > 0 then
    match getArrayAux (readFloatValue env) st.buffer cap cap st.readPointer.toNat [] with
    | .error e => .error e
    | .ok (vs, _) =>
        match padArray 0 cap doPad vs with
        | (arr, len) => .ok (arr, len, { st with readPointer := -1 })
  else .error .internalError

/-- `GetIntArray`. -/
def getIntArray (env : Env) (st : PState) (cap : Nat) (doPad : Bool) :
    Except ParseErr (List Int × Nat × PState) :=
  if st.readPointer > 0 then
    match getArrayAux (readIValue env) st.buffer cap cap st.readPointer.toNat [] with
    | .error e => .error e
    | .ok (vs, _) =>
        match padArray 0 cap doPad vs with
        | (arr, len) => .ok (arr, len, { st with readPointer := -1 })
  else .error .internalError

/-- `GetUnsignedArray`. -/
def getUnsignedArray (env : Env) (st : PState) (cap : Nat) (doPad : Bool) :
    Except ParseErr (List Nat × Nat × PState) :=
  if st.readPointer > 0 then
    match getArrayAux (readUIValue env) st.buffer cap cap st.readPointer.toNat [] with
    | .error e => .error e
    | .ok (vs, _) =>
        match padArray 0 cap doPad vs with
        | (arr, len) => .ok (arr, len, { st with readPointer := -1 })
  else .error .internalError

/-- `GetDriverIdArray`: as the others but without pad support. -/
def getDriverIdArray (env : Env) (st : PState) (cap : Nat) :
    Except ParseErr (List DriverId × Nat × PState) :=
  if st.readPointer > 0 then
    match getArrayAux (readDriverIdValue env) st.buffer cap cap st.readPointer.toNat [] with
    | .error e => .error e
    | .ok (vs, _) => .ok (vs, vs.length, { st with readPointer := -1 })
  else .error .internalError

/-- The segment loop of `GetIPAddress`: a decimal byte, then repeat after
    each `.`; at most four segments (the fuel counts the remaining
    separators allowed). -/
def ipLoop (buf : List Nat) : Nat → Nat → List Nat → Except ParseErr (List Nat)
  | fuel, p, acc =>
      match safeStrtoul buf p 10 with
      | (v, pp) =>
        if pp = p || v > 255 then .error .invalidIP
        else if !(bufGet buf pp = 46) then .ok (acc ++ [v])
        else
          match fuel with
          | 0 => .error .invalidIP
          | f + 1 => ipLoop buf f (pp + 1) (acc ++ [v])

/-- `GetIPAddress`: exactly four dot-separated decimal bytes. -/
def getIPAddress (_env : Env) (st : PState) : Except ParseErr (List Nat × PState) :=
  if st.readPointer ≤ 0 then .error .internalError
  else
    match ipLoop st.buffer 3 st.readPointer.toNat [] with
    | .error e => .error e
    | .ok vs =>
        if !(vs.length = 4) then .error .invalidIP
        else .ok (vs, { st with readPointer := -1 })

/-- The segment loop of `GetMacAddress`: hex bytes separated by `:`; at
    most six segments. -/
def macLoop (buf : List Nat) : Nat → Nat → List Nat → Except ParseErr (List Nat)
  | fuel, p, acc =>
      match safeStrtoul buf p 16 with
      | (v, pp) =>
        if pp = p || v > 255 then .error .invalidMAC
        else if !(bufGet buf pp = 58) then .ok (acc ++ [v])
        else
          match fuel with
          | 0 => .error .invalidMAC
          | f + 1 => macLoop buf f (pp + 1) (acc ++ [v])

/-- `GetMacAddress`: exactly six colon-separated hex bytes. -/
def getMacAddress (_env : Env) (st : PState) : Except ParseErr (List Nat × PState) :=
  if st.readPointer ≤ 0 then .error .internalError
  else
    match macLoop st.buffer 5 st.readPointer.toNat [] with
    | .error e => .error e
    | .ok vs =>
        if !(vs.length = 6) then .error .invalidMAC
        else .ok (vs, { st with readPointer := -1 })

/-- The character loop of `InternalGetQuotedString`, on the bytes from the
    current read position (the empty list stands for the NUL terminator
    and beyond; the fuel counts the bytes still available, so it never
    runs out before the list does).  Returns the collected string and the
    final read position. -/
def igqsLoop : Nat → List Nat → Nat → List Nat → Except ParseErr (List Nat × Nat)
  | _, [], _, _ => .error .controlCharInString
  | 0, _ :: _, _, _ => .error .controlCharInString
  | fuel + 1, c :: rest, rp, acc =>
      if c < 32 then .error .controlCharInString
      else if c = 34 then
        match rest with
        | [] => .ok (acc, rp + 2)
        | d :: rest2 =>
            if d = 34 then igqsLoop fuel rest2 (rp + 2) (acc ++ [34])
            else .ok (acc, rp + 2)
      else if c = 39 then
        match rest with
        | [] => .error .controlCharInString
        | d :: rest2 =>
            if isAlphaB d then igqsLoop fuel rest2 (rp + 2) (acc ++ [toLowerB d])
            else if d = 39 then igqsLoop fuel rest2 (rp + 2) (acc ++ [39])
            else igqsLoop fuel (d :: rest2) (rp + 1) (acc ++ [39])
      else igqsLoop fuel rest (rp + 1) (acc ++ [c])

/-- `InternalGetQuotedString`: entered with the read position at the
    opening double quote; skip it and run the loop. -/
def internalGetQuotedString (buf : List Nat) (rp : Nat) :
    Except ParseErr (List Nat × Nat) :=
  igqsLoop (buf.drop (rp + 1)).length (buf.drop (rp + 1)) (rp + 1) []

/-- Decimal digit bytes of an integer, with sign. -/
def intBytes (v : Int) : List Nat :=
  (if v < 0 then [45] else []) ++ natDigits v.natAbs

/-- Fixed-point rendering of a rational with the given number of decimals
    (the `printf("%.Nf", ...)` calls of `GetStringExpression`; the model
    rounds to nearest). -/
def fmtFixed (decimals : Nat) (q : ℚ) : List Nat :=
  let scaled : Int := Int.fdiv (2 * (q.num * 10 ^ decimals) + (q.den : Int)) (2 * (q.den : Int))
  let sign : List Nat := if scaled < 0 then [45] else []
  let ds := natDigits scaled.natAbs
  let ds := List.replicate (decimals + 1 - ds.length) 48 ++ ds
  if decimals = 0 then sign ++ ds
  else sign ++ ds.take (ds.length - decimals) ++ [46] ++ ds.drop (ds.length - decimals)

/-- Dotted-quad rendering of an IPv4 value (`IP4String`), least
    significant byte first. -/
def ip4Bytes (v : Nat) : List Nat :=
  natDigits (v % 256) ++ [46] ++ natDigits (v / 256 % 256) ++ [46] ++
    natDigits (v / 65536 % 256) ++ [46] ++ natDigits (v / 16777216 % 256)

/-- `GetStringExpression`: evaluate the `{...}` expression and render the
    value as text. -/
def getStringExpression (env : Env) (buf : List Nat) (rp : Nat) :
    Except ParseErr (List Nat × Nat) :=
  match evaluateExpression env buf rp with
  | .error e => .error e
  | .ok (val, rp) =>
    match val with
    | .str s => .ok (s, rp)
    | .float q => .ok (fmtFixed 1 q, rp)
    | .float2 q => .ok (fmtFixed 2 q, rp)
    | .float3 q => .ok (fmtFixed 3 q, rp)
    | .uint v => .ok (natDigits v, rp)
    | .int v => .ok (intBytes v, rp)
    | .bool b => .ok ((if b then [116, 114, 117, 101] else [102, 97, 108, 115, 101]), rp)
    | .ipv4 v => .ok (ip4Bytes v, rp)

/-- `GetQuotedString`: a `"` starts a plain quoted string, a `{` a string
    expression; anything else is an error. -/
def getQuotedString (env : Env) (st : PState) : Except ParseErr (List Nat × PState) :=
  if st.readPointer > 0 then
    if bufGet st.buffer st.readPointer.toNat = 34 then
      match internalGetQuotedString st.buffer st.readPointer.toNat with
      | .error e => .error e
      | .ok (s, rp) => .ok (s, { st with readPointer := (rp : Int) })
    else if bufGet st.buffer st.readPointer.toNat = 123 then
      match getStringExpression env st.buffer st.readPointer.toNat with
      | .error e => .error e
      | .ok (s, rp) => .ok (s, { st with readPointer := (rp : Int) })
    else .error .stringExpressionExpected
  else .error .internalError

/-- The rest-of-line loop of `InternalGetPossiblyQuotedString`: collect
    bytes until a character below 0x20 (the read position advances past
    that character too). -/
def pqTail : List Nat → Nat → List Nat × Nat
  | [], rp => ([], rp + 1)
  | c :: rest, rp =>
      if c < 32 then ([], rp + 1)
      else
        match pqTail rest (rp + 1) with
        | (s, r) => (c :: s, r)

/-- `StripTrailingSpaces` of the string class.  Modelled from the spec:
    trailing whitespace is stripped. -/
def stripTrailing (l : List Nat) : List Nat :=
  (l.reverse.dropWhile (fun c => c = 32 || c = 9)).reverse

/-- `InternalGetPossiblyQuotedString`: optional quoted part, optional
    string expression, then the remainder of the line; `commandEnd` is
    widened to the line end; trailing whitespace is stripped and, unless
    `allowEmpty`, an empty result is an error. -/
def internalGetPossiblyQuotedString (env : Env) (st : PState) (allowEmpty : Bool) :
    Except ParseErr (List Nat × PState) :=
  let rp := st.readPointer.toNat
  let quotedPart : Except ParseErr (List Nat × Nat) :=
    if bufGet st.buffer rp = 34 then internalGetQuotedString st.buffer rp
    else .ok ([], rp)
  match quotedPart with
  | .error e => .error e
  | .ok (s1, rp) =>
    let exprPart : Except ParseErr (List Nat × Nat) :=
      if bufGet st.buffer rp = 123 then getStringExpression env st.buffer rp
      else .ok (s1, rp)
    match exprPart with
    | .error e => .error e
    | .ok (s2, rp) =>
      let st := { st with commandEnd := st.gcodeLineEnd }
      match pqTail (st.buffer.drop rp) rp with
      | (tail, rp) =>
        let s := stripTrailing (s2 ++ tail)
        if !allowEmpty && s = [] then .error .nonEmptyStringExpected
        else .ok (s, { st with readPointer := (rp : Int) })

/-- `GetPossiblyQuotedString`: the source runs the internal reader and
    then falls through to `THROW_INTERNAL_ERROR` unconditionally (there
    is no `return` after the delegation). -/
def getPossiblyQuotedString (env : Env) (st : PState) :
    Except ParseErr (List Nat × PState) :=
  if st.readPointer > 0 then
    match internalGetPossiblyQuotedString env st false with
    | .error e => .error e
    | .ok _ => .error .internalError
  else .error .internalError

/-- The character loop of `GetReducedString`: `_`, `-` and space are
    elided, other characters lowercased, `""` escapes a quote, a control
    character is an error. -/
def grsLoop : List Nat → Nat → List Nat → Except ParseErr (List Nat × Nat)
  | [], _, _ => .error .controlCharInString
  | c :: rest, rp, acc =>
      if c = 34 then
        match rest with
        | [] => .ok (acc, rp + 2)
        | d :: rest2 =>
            if d = 34 then grsLoop rest2 (rp + 2) (acc ++ [34])
            else .ok (acc, rp + 2)
      else if c = 95 || c = 45 || c = 32 then grsLoop rest (rp + 1) acc
      else if c < 32 then .error .controlCharInString
      else grsLoop rest (rp + 1) (acc ++ [toLowerB c])

/-- `GetReducedString`: must start with a double quote. -/
def getReducedString (st : PState) : Except ParseErr (List Nat × PState) :=
  if st.readPointer > 0 then
    if !(bufGet st.buffer st.readPointer.toNat = 34) then .error .stringExpected
    else
      match grsLoop (st.buffer.drop (st.readPointer.toNat + 1))
          (st.readPointer.toNat + 1) [] with
      | .error e => .error e
      | .ok (s, rp) => .ok (s, { st with readPointer := (rp : Int) })
  else .error .internalError

/-- `GetUnprecedentedString`: start at `parameterStart`, skip leading
    blanks within the command, then read a possibly quoted string. -/
def getUnprecedentedString (env : Env) (st : PState) (allowEmpty : Bool) :
    Except ParseErr (List Nat × PState) :=
  let rp := st.parameterStart +
    ((bufSlice st.buffer st.parameterStart st.commandEnd).takeWhile
      (fun c => c = 32 || c = 9)).length
  internalGetPossiblyQuotedString env { st with readPointer := (rp : Int) } allowEmpty

/-- `SetFinished`: advance to the next sub-command on the same line, or
    clear `g53Active` and reset the line assembler. -/
def setFinished (env : Env) (st : PState) (ms : MState) : PState × MState :=
  if st.commandEnd < st.gcodeLineEnd then
    (decodeCommand env { st with commandStart := st.commandEnd }, ms)
  else (pInit st, { ms with g53Active := false })

deriving instance DecidableEq for Except

/-- The byte list of a string literal (ASCII). -/
def strBytes (s : String) : List Nat := s.data.map Char.toNat

/-- A concrete configuration: CNC machine with axis letters XYZUVW, CAN
    expansion, a 101-byte line buffer, and an object model resolving every
    name to `uint 7`. -/
def envC : Env :=
  { bufSize := 101
    axisLetters := [88, 89, 90, 85, 86, 87]
    machineType := .cnc
    supportCan := true
    maxVarNameLength := 100
    resolve := fun _ => .uint 7 }

/-- A concrete machine state executing from a file, outermost scope. -/
def msFile : MState :=
  { lineNumber := 0
    blocks := [.plain]
    doingFile := true
    previousIsNull := true
    g53Active := false
    fileRawPos := 0
    bytesCached := 0
    fileRewindTo := none }

/-- A concrete machine state reading from a non-file channel. -/
def msSerial : MState := { msFile with doingFile := false }

/-- A decoded-command parser state over the given line, with the given
    parameter span (as `DecodeCommand` would leave it for a simple
    G/M command). -/
def mkCmdState (s : String) (ps : Nat) : PState :=
  { initPState with
    buffer := strBytes s
    gcodeLineEnd := (strBytes s).length
    parameterStart := ps
    commandEnd := (strBytes s).length
    bufferState := .ready }

/-- C1, failing input: the source takes the keyword candidate at
    `&gb.buffer[commandIndent]`, but `Put` never stores the indentation
    bytes in the buffer, so on the indented line `" if true"` (one leading
    blank, read from a file) the keyword test misses and the line is
    decoded as a regular (invalid) G-code command — `Put` returns `true`
    with command letter `I`.  The same line without indentation is
    dispatched to the `if` handler (which raises, since condition
    evaluation is unimplemented), i.e. it is consumed and never decoded.
    This contradicts the claim that the keyword is consumed regardless of
    the indentation level, and the in-function inconsistency (the word is
    counted from `gb.buffer[0]` but matched from
    `gb.buffer[commandIndent]`) shows the offset is a slip. -/
theorem c1_keyword_line_bug :
    (readyFlag (putAll envC initPState msFile (strBytes " if true\n")) = some true
      ∧ (match putAll envC initPState msFile (strBytes " if true\n") with
         | .ok (_, st, _) => st.commandLetter
         | .error _ => 0) = 73)
    ∧ putAll envC initPState msFile (strBytes "if true\n")
        = .error (.conditionEvaluationFailed "if") := by
  decide

/-- The parameter state of C6's failing input: `M98 Pabc` after a
    successful `Seen('P')` (readPointer 5, at the unquoted text). -/
def stC6 : PState := (seen (mkCmdState "M98 Pabc" 3) 80).2

/-- C6: `GetPossiblyQuotedString` never returns successfully: after
    `InternalGetPossiblyQuotedString` returns (here having read the
    unquoted remainder `abc` perfectly well), control falls through to
    `THROW_INTERNAL_ERROR` — a missing `return` (its sibling
    `GetQuotedString` returns from the corresponding branches).  So on the
    failing input the getter raises `Internal` although the claim says it
    returns the string. -/
theorem c6_possibly_quoted_bug :
    getPossiblyQuotedString envC stC6 = .error .internalError
    ∧ (internalGetPossiblyQuotedString envC stC6 false).map Prod.fst
        = .ok (strBytes "abc")
    ∧ stC6.readPointer = 5 := by
  decide

/-- The parameter state of C10's failing input: `G1 X!5` after a
    successful `Seen('X')` (readPointer 4, at the `!`). -/
def stC10 : PState := (seen (mkCmdState "G1 X!5" 2) 88).2

/-- C10: `ReadFloatValue` pre-increments `readPointer` although `Seen`
    already left it one past the parameter letter (the int and uint
    readers correctly start at `readPointer`), so the float text is parsed
    from the parameter's second character: `GetFValue` on `X!5` returns 5,
    while `strtof` semantics on the full text `!5` (no valid number)
    require 0 — and the `{` expression test is likewise applied to the
    second character.  The claim correctly describes `strtof` semantics
    from the first character; the code is off by one. -/
theorem c10_float_read_bug :
    (getFValue envC stC10).map Prod.fst = .ok 5
    ∧ stC10.readPointer = 4
    ∧ safeStrtof stC10.buffer 4 = (0, 4)
    ∧ bufGet stC10.buffer 4 = 33 := by
  decide

theorem decodeCommand_buffer (env : Env) (st : PState) :
    (decodeCommand env st).buffer = st.buffer := by
  simp only [decodeCommand]
  split_ifs <;> rfl

theorem decodeCommand_ready (env : Env) (st : PState) :
    (decodeCommand env st).bufferState = .ready := by
  simp only [decodeCommand]
  split_ifs <;> rfl

theorem m998_decode (env : Env) (st : PState) (d : List Nat)
    (hbuf : st.buffer = [77, 57, 57, 56, 32, 80] ++ d) (hcs : st.commandStart = 0) :
    (decodeCommand env st).commandLetter = 77
    ∧ (decodeCommand env st).commandNumber = 998
    ∧ (decodeCommand env st).hasCommandNumber = true := by
  simp only [decodeCommand, hbuf, hcs]
  norm_num [bufGet, toUpperB, isDigitB, List.takeWhile_cons, List.foldl, List.getD]

theorem m998_take (n : Nat) (cap : Nat) (h : 18 ≤ cap) :
    (m998Bytes n).take (cap - 1)
      = [77, 57, 57, 56, 32, 80] ++ (natDigits n).take (cap - 1 - 6) := by
  have h6 : ([77, 57, 57, 56, 32, 80] : List Nat).length ≤ cap - 1 := by
    simp; omega
  rw [m998Bytes, List.take_append_eq_append_take, List.take_of_length_le h6]
  simp

/-- C2, counterexample: on the line `" N5 G1 X1*99"` (declared checksum 99,
    computed checksum 68, line number 5) arriving from a file while the
    block controller is skipping to indent 0, the buffer is replaced but
    the line is then swallowed by the skip test, so `Put` returns `false`
    with no command ready — the claim promises `true` for every such
    line. -/
theorem c2_counterexample :
    ((feedList envC { initPState with indentToSkipTo := some 0 } (strBytes " N5 G1 X1*99")).hadChecksum = true
      ∧ (feedList envC { initPState with indentToSkipTo := some 0 } (strBytes " N5 G1 X1*99")).hadLineNumber = true
      ∧ (feedList envC { initPState with indentToSkipTo := some 0 } (strBytes " N5 G1 X1*99")).computedChecksum = 68
      ∧ (feedList envC { initPState with indentToSkipTo := some 0 } (strBytes " N5 G1 X1*99")).declaredChecksum = 99)
    ∧ readyFlag (putAll envC { initPState with indentToSkipTo := some 0 } msFile
        (strBytes " N5 G1 X1*99\n")) = some false := by
  decide

/-- C2 (amended): on a non-empty, non-overflowing line whose declared
    checksum does not match the computed one: without a line number the
    parser resets and `Put` returns false; with a line number the buffer is
    replaced by the literal `M998 P<n>` (truncated to the buffer capacity)
    and — provided the line is not executing from a file, where the block
    controller may additionally swallow it — the line proceeds to decoding
    and `Put` returns true with the resend command ready (letter `M`,
    number 998 whenever the capacity holds the full text). -/
theorem c2_bad_checksum_amended (env : Env) (st : PState) (ms : MState)
    (hcs : st.hadChecksum = true)
    (hbad : st.computedChecksum ≠ st.declaredChecksum)
    (hne : 0 < st.gcodeLineEnd)
    (hcap : st.gcodeLineEnd ≠ env.bufSize) :
    (st.hadLineNumber = false → lineFinished env st ms = .ok (false, pInit st, ms))
    ∧ (st.hadLineNumber = true → ms.doingFile = false →
        ∃ st', lineFinished env st ms
            = .ok (true, st', { ms with lineNumber := st.receivedLineNumber })
          ∧ st'.buffer = (m998Bytes st.receivedLineNumber).take (env.bufSize - 1)
          ∧ st'.bufferState = .ready
          ∧ (18 ≤ env.bufSize →
              st'.commandLetter = 77 ∧ st'.commandNumber = 998
                ∧ st'.hasCommandNumber = true)) := by
  have hbad' : (st.computedChecksum = st.declaredChecksum) = False := by
    simp [hbad]
  constructor
  · intro hln
    simp only [lineFinished, hcs, hln, hbad']
    rw [if_neg (by omega), if_neg hcap]
    simp
  · intro hln hdf
    simp only [lineFinished, hcs, hln, hbad', hdf]
    rw [if_neg (by omega), if_neg hcap]
    simp only [Bool.not_false, Bool.and_true, decide_False, Bool.true_and, if_false,
      Bool.not_true, Bool.false_and, Bool.and_false, if_true, ite_true, ite_false]
    refine ⟨decodeCommand env
      { st with buffer := (m998Bytes st.receivedLineNumber).take (env.bufSize - 1),
                commandStart := 0 }, ?_, ?_, ?_, ?_⟩
    · simp [hln, hcs]
    · rw [decodeCommand_buffer]
    · rw [decodeCommand_ready]
    · intro hbig
      exact m998_decode env _ _ (by rw [m998_take _ _ hbig]) rfl

/-- Witness for C2 (amended): the serial line `N5 G1 X1*99` (stored bytes
    `G1 X1`, computed checksum 68 ≠ declared 99) yields the resend request
    `M998 P5`, decoded and ready. -/
theorem c2_bad_checksum_amended_witness :
    (lineFinished envC (feedList envC initPState (strBytes "N5 G1 X1*99")) msSerial).map
        (fun r => (r.1, r.2.1.buffer, r.2.1.bufferState, r.2.1.commandLetter,
                   r.2.1.commandNumber, r.2.2.lineNumber))
      = .ok (true, strBytes "M998 P5", .ready, 77, 998, 5) := by
  obtain ⟨st', heq, hbuf, hready, hrest⟩ :=
    (c2_bad_checksum_amended envC (feedList envC initPState (strBytes "N5 G1 X1*99"))
      msSerial (by decide) (by decide) (by decide) (by decide)).2 (by decide) rfl
  obtain ⟨hl, hn, hh⟩ := hrest (by decide)
  rw [heq]
  simp only [Except.map, hbuf, hready, hl, hn]
  decide

/-- The ingest states that can still reach a `*` that introduces a
    checksum (everything before `parsingChecksum`, excluding the
    discarding and ready states). -/
def goodState : GBState → Bool
  | .parsingChecksum => false
  | .discarding => false
  | .ready => false
  | _ => true

theorem handleCode_cs (env : Env) (st : PState) (c : Nat)
    (h : goodState (handleCode env st c).bufferState = true) :
    (handleCode env st c).computedChecksum = st.computedChecksum ^^^ (c % 256) := by
  simp only [handleCode, storeAndAddToChecksum, addToChecksum] at h ⊢
  split_ifs at h ⊢ <;> simp_all [goodState]

theorem handleWhitespace_cs (env : Env) (st : PState) (c : Nat)
    (h : goodState (handleWhitespace env st c).bufferState = true) :
    (handleWhitespace env st c).computedChecksum = st.computedChecksum ^^^ (c % 256) := by
  simp only [handleWhitespace] at h ⊢
  split_ifs at h ⊢
  · simp [addToChecksum]
  · exact handleCode_cs env _ c h

theorem handleNotStarted_cs (env : Env) (st : PState) (c : Nat)
    (h : goodState (handleNotStarted env st c).bufferState = true) :
    (handleNotStarted env st c).computedChecksum = st.computedChecksum ^^^ (c % 256) := by
  simp only [handleNotStarted] at h ⊢
  split_ifs at h ⊢
  · simp [addToChecksum]
  · simp [addToChecksum]
  · exact handleCode_cs env _ c h

theorem handleLineNumber_cs (env : Env) (st : PState) (c : Nat)
    (h : goodState (handleLineNumber env st c).bufferState = true) :
    (handleLineNumber env st c).computedChecksum = st.computedChecksum ^^^ (c % 256) := by
  simp only [handleLineNumber] at h ⊢
  split_ifs at h ⊢
  · simp [addToChecksum]
  · exact handleWhitespace_cs env _ c h

theorem putSM_cs (env : Env) (st : PState) (c : Nat)
    (h : goodState (putSM env st c).bufferState = true) :
    goodState st.bufferState = true
    ∧ (putSM env st c).computedChecksum = st.computedChecksum ^^^ (c % 256) := by
  cases hst : st.bufferState
  all_goals simp only [putSM, hst] at h ⊢
  case parseNotStarted => exact ⟨rfl, handleNotStarted_cs env st c h⟩
  case parsingLineNumber => exact ⟨rfl, handleLineNumber_cs env st c h⟩
  case parsingWhitespace => exact ⟨rfl, handleWhitespace_cs env st c h⟩
  case parsingGCode => exact ⟨rfl, handleCode_cs env st c h⟩
  case parsingBracketedComment =>
    refine ⟨rfl, ?_⟩
    split_ifs <;> simp [addToChecksum]
  case parsingQuotedString =>
    refine ⟨rfl, ?_⟩
    simp only [storeAndAddToChecksum, addToChecksum]
    split_ifs <;> simp
  case parsingChecksum =>
    exfalso
    simp only [handleChecksum] at h
    split_ifs at h <;> simp_all [goodState, hst]
  case discarding => simp [goodState, hst] at h
  case ready => simp [goodState, hst] at h

theorem feedByte_cs (env : Env) (st : PState) (c : Nat)
    (hlt : c < 256)
    (h : goodState (feedByte env st c).bufferState = true) :
    goodState st.bufferState = true
    ∧ (feedByte env st c).computedChecksum = st.computedChecksum ^^^ c := by
  have hc : c % 256 = c := Nat.mod_eq_of_lt hlt
  by_cases h7 : c = 127
  · exfalso
    by_cases hd : st.bufferState = .discarding
    · simp only [feedByte, h7, hd, putSM] at h
      simp [goodState, hd] at h
    · simp only [feedByte, h7] at h
      simp only [decide_True, hd, decide_False, Bool.not_false, Bool.and_true,
        if_true, Bool.true_and] at h
      simp [putSM, goodState] at h
  · have hstep : feedByte env st c
        = putSM env { st with commandLength := st.commandLength + 1 } c := by
      simp [feedByte, h7]
    rw [hstep] at h ⊢
    obtain ⟨hg, hcs⟩ := putSM_cs env { st with commandLength := st.commandLength + 1 } c h
    exact ⟨hg, by rw [hcs, hc]⟩

theorem feedList_cs (env : Env) (bs : List Nat) :
    ∀ (st : PState), (∀ b ∈ bs, b < 256) →
      goodState (feedList env st bs).bufferState = true →
      goodState st.bufferState = true
      ∧ (feedList env st bs).computedChecksum
          = bs.foldl (fun a b => a ^^^ b) st.computedChecksum := by
  induction bs with
  | nil => intro st _ h; exact ⟨h, rfl⟩
  | cons b bs ih =>
      intro st hb h
      have hstep : feedList env st (b :: bs) = feedList env (feedByte env st b) bs := rfl
      rw [hstep] at h ⊢
      obtain ⟨hg1, hcs1⟩ := ih (feedByte env st b) (fun x hx => hb x (List.mem_cons_of_mem b hx)) h
      obtain ⟨hg0, hcs0⟩ := feedByte_cs env st b (hb b (List.mem_cons_self b bs)) hg1
      exact ⟨hg0, by rw [hcs1, hcs0]; rfl⟩

/-- C3 (confirmed): after feeding any sequence of non-terminator bytes
    from a fresh line such that the state machine is in the `Code` state,
    feeding `*` (0x2A) moves to the checksum state with `hadChecksum` set,
    and at that moment `computedChecksum` equals the XOR of every byte
    consumed on the line — line-number bytes, indentation, comment bytes,
    quoted-string bytes and bytes dropped on a full buffer included,
    the `*` itself excluded. -/
theorem c3_checksum_xor (env : Env) (bs : List Nat)
    (hbytes : ∀ b ∈ bs, b ≠ 0 ∧ b ≠ 10 ∧ b ≠ 13 ∧ b < 256)
    (hG : (feedList env initPState bs).bufferState = .parsingGCode) :
    (feedByte env (feedList env initPState bs) 42).computedChecksum
        = bs.foldl (fun a b => a ^^^ b) 0
    ∧ (feedByte env (feedList env initPState bs) 42).hadChecksum = true
    ∧ (feedByte env (feedList env initPState bs) 42).bufferState = .parsingChecksum := by
  have hgood : goodState (feedList env initPState bs).bufferState = true := by
    rw [hG]; rfl
  obtain ⟨-, hcs⟩ := feedList_cs env bs initPState (fun b hb => (hbytes b hb).2.2.2) hgood
  have hstar : feedByte env (feedList env initPState bs) 42
      = handleCode env
          { feedList env initPState bs with
            commandLength := (feedList env initPState bs).commandLength + 1 } 42 := by
    simp [feedByte, putSM, hG]
  rw [hstar]
  simp only [handleCode, if_pos rfl]
  refine ⟨?_, rfl, rfl⟩
  rw [show ({ feedList env initPState bs with
      commandLength := (feedList env initPState bs).commandLength + 1 } : PState).computedChecksum
      = (feedList env initPState bs).computedChecksum from rfl, hcs]
  rfl

/-- Witness for C3: the line prefix `N1 G(c)1 "q" X5` (line number,
    bracketed comment, quoted string) reaches the Code state with checksum
    equal to the XOR of all its bytes, and `*` freezes it. -/
theorem c3_checksum_xor_witness :
    (feedByte envC (feedList envC initPState (strBytes "N1 G(c)1 \"q\" X5")) 42).computedChecksum
        = (strBytes "N1 G(c)1 \"q\" X5").foldl (fun a b => a ^^^ b) 0
    ∧ (feedByte envC (feedList envC initPState (strBytes "N1 G(c)1 \"q\" X5")) 42).hadChecksum
        = true := by
  have h := c3_checksum_xor envC (strBytes "N1 G(c)1 \"q\" X5") (by decide) (by decide)
  exact ⟨h.1, h.2.1⟩

/-- One byte of the quote/brace scan used to interpret the claim's
    "outside double quotes and at brace depth 0": a `"` toggles the quote
    state; outside quotes `{` increments and `}` (at positive depth)
    decrements the brace depth. -/
def scanStep : Bool × Nat → Nat → Bool × Nat
  | (q, d), b =>
      if b = 34 then (!q, d)
      else if q then (q, d)
      else if b = 123 then (q, d + 1)
      else if b = 125 && !(d = 0) then (q, d - 1)
      else (q, d)

/-- The quote/brace scan state after `k` bytes from `ps`. -/
def scanStateAux (buf : List Nat) (ps : Nat) : Nat → Bool × Nat
  | 0 => (false, 0)
  | k + 1 => scanStep (scanStateAux buf ps k) (bufGet buf (ps + k))

/-- The quote/brace scan state at position `i`, scanning from `ps`. -/
def scanState (buf : List Nat) (ps i : Nat) : Bool × Nat :=
  scanStateAux buf ps (i - ps)

/-- The claim's occurrence predicate for `Seen(c)` at position `i`,
    exactly as worded: a case-insensitive occurrence of `c`, outside
    double quotes, at brace depth 0, excluding occurrences of `E` whose
    immediately preceding character is a digit. -/
def specSeenMatch (buf : List Nat) (ps : Nat) (c : Nat) (i : Nat) : Bool :=
  decide ((scanState buf ps i).1 = false ∧ (scanState buf ps i).2 = 0
    ∧ toUpperB (bufGet buf i) = c
    ∧ ¬(c = 69 ∧ 0 < i ∧ isDigitB (bufGet buf (i - 1)) = true))

/-- The amended occurrence predicate: as the claim's, except that an `E`
    exactly at `parameterStart` matches even when the preceding character
    is a digit (the code short-circuits the digit test there). -/
def amendSeenMatch (buf : List Nat) (ps : Nat) (c : Nat) (i : Nat) : Bool :=
  decide ((scanState buf ps i).1 = false ∧ (scanState buf ps i).2 = 0
    ∧ toUpperB (bufGet buf i) = c
    ∧ ¬(c = 69 ∧ i ≠ ps ∧ isDigitB (bufGet buf (i - 1)) = true))

/-- C4, counterexample: on the decoded command `G1E5`
    (`parameterStart = 2`), `Seen('E')` returns true, matching the `E` at
    position 2, although its immediately preceding character `1` is a
    digit — under the claim's predicate there is no occurrence at all in
    `[2, 4)`. -/
theorem c4_counterexample :
    (seen (mkCmdState "G1E5" 2) 69).1 = true
    ∧ (∀ i, 2 ≤ i → i < 4 → specSeenMatch (strBytes "G1E5") 2 69 i = false) := by
  decide

theorem scanState_succ (buf : List Nat) (ps rp : Nat) (h : ps ≤ rp) :
    scanState buf ps (rp + 1) = scanStep (scanState buf ps rp) (bufGet buf rp) := by
  unfold scanState
  rw [show rp + 1 - ps = (rp - ps) + 1 by omega]
  simp only [scanStateAux]
  rw [show ps + (rp - ps) = rp by omega]

theorem amendSeenMatch_iff (buf : List Nat) (ps : Nat) (c : Nat) (i : Nat) :
    amendSeenMatch buf ps c i = true ↔
      ((scanState buf ps i).1 = false ∧ (scanState buf ps i).2 = 0
        ∧ toUpperB (bufGet buf i) = c
        ∧ ¬(c = 69 ∧ i ≠ ps ∧ isDigitB (bufGet buf (i - 1)) = true)) :=
  decide_eq_true_iff

theorem amendE_of_codeE {c rp ps : Nat} {db : Nat}
    (hE : ¬c = 69 ∨ rp = ps ∨ isDigitB db = false) :
    ¬(c = 69 ∧ rp ≠ ps ∧ isDigitB db = true) := by
  rintro ⟨h69, hrp, hdb⟩
  rcases hE with h | h | h
  · exact h h69
  · exact hrp h
  · rw [hdb] at h; cases h

theorem codeE_of_amendE {c rp ps : Nat} {db : Nat}
    (hE : ¬(c = 69 ∧ rp ≠ ps ∧ isDigitB db = true)) :
    ¬c = 69 ∨ rp = ps ∨ isDigitB db = false := by
  by_cases h69 : c = 69
  · by_cases hrp : rp = ps
    · exact Or.inr (Or.inl hrp)
    · cases hdb : isDigitB db
      · exact Or.inr (Or.inr rfl)
      · exact absurd ⟨h69, hrp, hdb⟩ hE
  · exact Or.inl h69

theorem seenAux_eq_find (buf : List Nat) (ps c : Nat) (hc1 : 65 ≤ c) (hc2 : c ≤ 90) :
    ∀ (k rp : Nat) (q : Bool) (d : Nat), ps ≤ rp →
      scanState buf ps rp = (q, d) →
      seenAux buf ps c k rp q d
        = ((List.range' rp k).find? (amendSeenMatch buf ps c)).map (· + 1) := by
  intro k
  induction k with
  | zero => intro rp q d _ _; rfl
  | succ k ih =>
      intro rp q d hps hscan
      rw [show List.range' rp (k + 1) = rp :: List.range' (rp + 1) k from rfl]
      have hsucc := scanState_succ buf ps rp hps
      rw [hscan] at hsucc
      have hq1 : (scanState buf ps rp).1 = q := by rw [hscan]
      have hd1 : (scanState buf ps rp).2 = d := by rw [hscan]
      simp only [seenAux]
      split_ifs with h1 h2 h3 h4 h5
      · -- b = '"'
        have hno : ¬ amendSeenMatch buf ps c rp = true := by
          intro hm
          obtain ⟨-, -, hup, -⟩ := (amendSeenMatch_iff buf ps c rp).1 hm
          rw [h1] at hup
          simp [toUpperB] at hup
          omega
        rw [List.find?_cons_of_neg _ hno, ih (rp + 1) (!q) d (by omega)
          (by rw [hsucc]; simp only [scanStep]; rw [if_pos h1])]
      · -- inside quotes
        have hno : ¬ amendSeenMatch buf ps c rp = true := by
          intro hm
          obtain ⟨hq0, -, -, -⟩ := (amendSeenMatch_iff buf ps c rp).1 hm
          rw [hq1] at hq0
          rw [hq0] at h2
          exact Bool.noConfusion h2
        rw [List.find?_cons_of_neg _ hno, ih (rp + 1) q d (by omega)
          (by rw [hsucc]; simp only [scanStep]; rw [if_neg h1, if_pos h2])]
      · -- the match branch
        have hq0 : q = false := by
          cases hq : q
          · rfl
          · exact absurd hq h2
        have hyes : amendSeenMatch buf ps c rp = true := by
          simp only [Bool.and_eq_true, decide_eq_true_eq, Bool.or_eq_true,
            Bool.not_eq_true', decide_eq_false_iff_not] at h3
          obtain ⟨⟨hd0, hup⟩, hE⟩ := h3
          refine (amendSeenMatch_iff buf ps c rp).2
            ⟨by rw [hq1, hq0], by rw [hd1, hd0], hup, amendE_of_codeE ?_⟩
          rcases hE with (h | h) | h
          · exact Or.inl h
          · exact Or.inr (Or.inl h)
          · exact Or.inr (Or.inr h)
        rw [List.find?_cons_of_pos _ hyes]
        rfl
      · -- '{'
        have hq0 : q = false := by
          cases hq : q
          · rfl
          · exact absurd hq h2
        have hno : ¬ amendSeenMatch buf ps c rp = true := by
          intro hm
          obtain ⟨-, hd0, hup, hE⟩ := (amendSeenMatch_iff buf ps c rp).1 hm
          apply h3
          simp only [Bool.and_eq_true, decide_eq_true_eq, Bool.or_eq_true,
            Bool.not_eq_true', decide_eq_false_iff_not]
          refine ⟨⟨by rw [← hd1, hd0], hup⟩, ?_⟩
          rcases codeE_of_amendE hE with h | h | h
          · exact Or.inl (Or.inl h)
          · exact Or.inl (Or.inr h)
          · exact Or.inr h
        rw [List.find?_cons_of_neg _ hno, ih (rp + 1) q (d + 1) (by omega)
          (by rw [hsucc]; simp only [scanStep]; rw [if_neg h1, if_neg h2, if_pos h4])]
      · -- '}' at positive depth
        have hb125 : bufGet buf rp = 125 := by
          have := h5
          simp only [Bool.and_eq_true, decide_eq_true_eq] at this
          exact this.1
        have hno : ¬ amendSeenMatch buf ps c rp = true := by
          intro hm
          obtain ⟨-, hd0, hup, hE⟩ := (amendSeenMatch_iff buf ps c rp).1 hm
          apply h3
          simp only [Bool.and_eq_true, decide_eq_true_eq, Bool.or_eq_true,
            Bool.not_eq_true', decide_eq_false_iff_not]
          refine ⟨⟨by rw [← hd1, hd0], hup⟩, ?_⟩
          rcases codeE_of_amendE hE with h | h | h
          · exact Or.inl (Or.inl h)
          · exact Or.inl (Or.inr h)
          · exact Or.inr h
        rw [List.find?_cons_of_neg _ hno, ih (rp + 1) q (d - 1) (by omega)
          (by
            rw [hsucc]
            simp only [scanStep]
            rw [if_neg h1, if_neg h2, if_neg (by rw [hb125]; omega), if_pos h5])]
      · -- any other byte
        have hno : ¬ amendSeenMatch buf ps c rp = true := by
          intro hm
          obtain ⟨-, hd0, hup, hE⟩ := (amendSeenMatch_iff buf ps c rp).1 hm
          apply h3
          simp only [Bool.and_eq_true, decide_eq_true_eq, Bool.or_eq_true,
            Bool.not_eq_true', decide_eq_false_iff_not]
          refine ⟨⟨by rw [← hd1, hd0], hup⟩, ?_⟩
          rcases codeE_of_amendE hE with h | h | h
          · exact Or.inl (Or.inl h)
          · exact Or.inl (Or.inr h)
          · exact Or.inr h
        rw [List.find?_cons_of_neg _ hno, ih (rp + 1) q d (by omega)
          (by
            rw [hsucc]
            simp only [scanStep]
            rw [if_neg h1, if_neg h2, if_neg h4, if_neg h5])]

/-- C4 (amended): `Seen(c)` for an uppercase letter `c` equals the first
    position in `[parameterStart, commandEnd)` satisfying the amended
    occurrence predicate — the claim's predicate except that an `E` at
    `parameterStart` is not excluded by a preceding digit — leaving
    `readPointer` one past the first such occurrence, or `-1` (returning
    false) when there is none; in particular `Seen(c)` returns true iff
    such an occurrence exists. -/
theorem c4_seen_amended (st : PState) (c : Nat) (hc1 : 65 ≤ c) (hc2 : c ≤ 90) :
    (seen st c
      = match (List.range' st.parameterStart (st.commandEnd - st.parameterStart)).find?
            (amendSeenMatch st.buffer st.parameterStart c) with
        | some i => (true, { st with readPointer := ((i + 1 : Nat) : Int) })
        | none => (false, { st with readPointer := -1 }))
    ∧ ((seen st c).1 = true ↔
        ∃ i, st.parameterStart ≤ i ∧ i < st.commandEnd
          ∧ amendSeenMatch st.buffer st.parameterStart c i = true) := by
  have hinit : scanState st.buffer st.parameterStart st.parameterStart = (false, 0) := by
    simp [scanState, Nat.sub_self, scanStateAux]
  have hfind := seenAux_eq_find st.buffer st.parameterStart c hc1 hc2
    (st.commandEnd - st.parameterStart) st.parameterStart false 0 le_rfl hinit
  have hmain : seen st c
      = match (List.range' st.parameterStart (st.commandEnd - st.parameterStart)).find?
            (amendSeenMatch st.buffer st.parameterStart c) with
        | some i => (true, { st with readPointer := ((i + 1 : Nat) : Int) })
        | none => (false, { st with readPointer := -1 }) := by
    rw [seen, hfind]
    cases hf : (List.range' st.parameterStart (st.commandEnd - st.parameterStart)).find?
        (amendSeenMatch st.buffer st.parameterStart c) with
    | none => rfl
    | some i => rfl
  refine ⟨hmain, ?_⟩
  rw [hmain]
  cases hf : (List.range' st.parameterStart (st.commandEnd - st.parameterStart)).find?
      (amendSeenMatch st.buffer st.parameterStart c) with
  | none =>
      simp only [iff_false, Bool.false_eq_true, false_iff]
      rintro ⟨i, hle, hlt, hm⟩
      have hsome : ((List.range' st.parameterStart
          (st.commandEnd - st.parameterStart)).find?
            (amendSeenMatch st.buffer st.parameterStart c)).isSome := by
        rw [List.find?_isSome]
        exact ⟨i, by rw [List.mem_range'_1]; omega, hm⟩
      rw [hf] at hsome
      cases hsome
  | some i =>
      simp only [true_iff]
      refine ⟨i, ?_, ?_, List.find?_some hf⟩
      · have := List.mem_range'_1.1 (List.mem_of_find?_eq_some hf)
        omega
      · have := List.mem_range'_1.1 (List.mem_of_find?_eq_some hf)
        omega

/-- Witness for C4 (amended): on `G1 X5 Y6` with `parameterStart = 2`,
    `Seen('X')` matches at position 3 and leaves `readPointer = 4`. -/
theorem c4_seen_amended_witness :
    seen (mkCmdState "G1 X5 Y6" 2) 88
      = (true, { mkCmdState "G1 X5 Y6" 2 with readPointer := 4 }) := by
  have h := (c4_seen_amended (mkCmdState "G1 X5 Y6" 2) 88 (by decide) (by decide)).1
  rw [h]
  decide

/-- The claim's Fanuc-fallback condition, as worded: the previously
    decoded command was G0, G1, G2 or G3; the current character is a
    configured axis letter, or `I`/`J` with the previous command G2/G3;
    and the machine type is CNC. -/
def specFanucCond (env : Env) (st : PState) (cl : Nat) : Prop :=
  st.hasCommandNumber = true ∧ st.commandLetter = 71
    ∧ (st.commandNumber = 0 ∨ st.commandNumber = 1
        ∨ st.commandNumber = 2 ∨ st.commandNumber = 3)
    ∧ (cl ∈ env.axisLetters
        ∨ ((cl = 73 ∨ cl = 74) ∧ (st.commandNumber = 2 ∨ st.commandNumber = 3)))
    ∧ env.machineType = .cnc

/-- The amended Fanuc-fallback condition: as the claim's, except that the
    previous command may be any G command with `commandNumber ≤ 3`
    (negative numbers included), the code's actual test. -/
def amendFanucCond (env : Env) (st : PState) (cl : Nat) : Prop :=
  st.hasCommandNumber = true ∧ st.commandLetter = 71 ∧ st.commandNumber ≤ 3
    ∧ (cl ∈ env.axisLetters ∨ ((cl = 73 ∨ cl = 74) ∧ 2 ≤ st.commandNumber))
    ∧ env.machineType = .cnc

instance (env : Env) (st : PState) (cl : Nat) : Decidable (specFanucCond env st cl) := by
  unfold specFanucCond; infer_instance

instance (env : Env) (st : PState) (cl : Nat) : Decidable (amendFanucCond env st cl) := by
  unfold amendFanucCond; infer_instance

/-- The state `DecodeCommand` produces when the Fanuc fallback applies. -/
def fanucResult (st : PState) : PState :=
  { st with commandFraction := -1, parameterStart := st.commandStart,
            commandEnd := st.gcodeLineEnd, bufferState := .ready }

/-- The state `DecodeCommand` produces when the command is marked
    invalid. -/
def invalidResult (st : PState) (cl : Nat) : PState :=
  { st with commandFraction := -1, commandLetter := cl, hasCommandNumber := false,
            commandNumber := -1, parameterStart := st.commandStart,
            commandEnd := st.gcodeLineEnd, bufferState := .ready }

theorem toUpperB_ne_zero (x : Nat) (h : x ≠ 0) : toUpperB x ≠ 0 := by
  simp only [toUpperB]
  split_ifs with hr
  · simp only [Bool.and_eq_true, decide_eq_true_eq] at hr
    omega
  · exact h

theorem strchrFound_iff (s : List Nat) (cl : Nat) (hne : cl ≠ 0) :
    strchrFound s cl = true ↔ cl ∈ s := by
  simp [strchrFound, hne, List.elem_iff]

/-- A concrete previous command `G-1` (letter G, command number −1): the
    source accepts `G-<digits>`, so this state is reachable. -/
def stC7 : PState :=
  { mkCmdState "X5" 0 with
    commandLetter := 71
    commandNumber := -1
    hasCommandNumber := true
    commandStart := 0 }

/-- C7, counterexample: with the previously decoded command `G-1` (not one
    of G0..G3) and the line `X5` in CNC mode, `DecodeCommand` nevertheless
    applies the Fanuc fallback — the code only tests `commandNumber <= 3`,
    which negative command numbers satisfy — leaving `hasCommandNumber`
    true instead of marking the command invalid as the claim requires. -/
theorem c7_counterexample :
    (decodeCommand envC stC7).hasCommandNumber = true
    ∧ (decodeCommand envC stC7).parameterStart = 0
    ∧ (decodeCommand envC stC7).commandEnd = 2
    ∧ ¬ specFanucCond envC stC7 (toUpperB (bufGet stC7.buffer stC7.commandStart)) := by
  decide

/-- C7 (amended): when the character at `commandStart` is not G/M/T (and
    is a real stored byte), `DecodeCommand` applies the Fanuc fallback —
    reusing the previous command with `parameterStart = commandStart` and
    `commandEnd` = line end — exactly when the previously decoded command
    was a G command with command number at most 3 (negative numbers
    included), the current character is a configured axis letter or is
    `I`/`J` with the previous command number 2 or 3, and the machine type
    is CNC; in every other such case the command is marked invalid with
    `hasCommandNumber = false`. -/
theorem c7_fanuc_amended (env : Env) (st : PState)
    (h71 : toUpperB (bufGet st.buffer st.commandStart) ≠ 71)
    (h77 : toUpperB (bufGet st.buffer st.commandStart) ≠ 77)
    (h84 : toUpperB (bufGet st.buffer st.commandStart) ≠ 84)
    (h0 : bufGet st.buffer st.commandStart ≠ 0) :
    decodeCommand env st
      = if amendFanucCond env st (toUpperB (bufGet st.buffer st.commandStart))
        then fanucResult st
        else invalidResult st (toUpperB (bufGet st.buffer st.commandStart)) := by
  have hne := toUpperB_ne_zero _ h0
  have hGMT : ¬((decide (toUpperB (bufGet st.buffer st.commandStart) = 71)
      || decide (toUpperB (bufGet st.buffer st.commandStart) = 77)
      || decide (toUpperB (bufGet st.buffer st.commandStart) = 84)) = true) := by
    simp [h71, h77, h84]
  simp only [decodeCommand]
  rw [if_neg hGMT]
  by_cases hA : amendFanucCond env st (toUpperB (bufGet st.buffer st.commandStart))
  · rw [if_pos hA, if_pos ?hcode]
    · rfl
    case hcode =>
      obtain ⟨hnum, hlet, hle, haxis, hcnc⟩ := hA
      simp only [Bool.and_eq_true, decide_eq_true_eq, Bool.or_eq_true]
      refine ⟨⟨⟨⟨hnum, hlet⟩, hle⟩, ?_⟩, hcnc⟩
      rcases haxis with h | h
      · exact Or.inl ((strchrFound_iff _ _ hne).2 h)
      · exact Or.inr ⟨h.1, h.2⟩
  · rw [if_neg hA, if_neg ?hcodeneg]
    · rfl
    case hcodeneg =>
      intro hcode
      apply hA
      simp only [Bool.and_eq_true, decide_eq_true_eq, Bool.or_eq_true] at hcode
      obtain ⟨⟨⟨⟨hnum, hlet⟩, hle⟩, haxis⟩, hcnc⟩ := hcode
      refine ⟨hnum, hlet, hle, ?_, hcnc⟩
      rcases haxis with h | h
      · exact Or.inl ((strchrFound_iff _ _ hne).1 h)
      · exact Or.inr ⟨h.1, h.2⟩

/-- Witness for C7 (amended): previous command `G2`, line `X20 Y20 I5 J0`
    in CNC mode — the fallback applies with `parameterStart = 0`. -/
theorem c7_fanuc_amended_witness :
    decodeCommand envC
        { mkCmdState "X20 Y20 I5 J0" 0 with
          commandLetter := 71, commandNumber := 2, hasCommandNumber := true }
      = fanucResult
        { mkCmdState "X20 Y20 I5 J0" 0 with
          commandLetter := 71, commandNumber := 2, hasCommandNumber := true } := by
  have h := c7_fanuc_amended envC
    { mkCmdState "X20 Y20 I5 J0" 0 with
      commandLetter := 71, commandNumber := 2, hasCommandNumber := true }
    (by decide) (by decide) (by decide) (by decide)
  rw [h]
  decide

theorem igqsLoop_no_quote : ∀ (fuel : Nat) (l : List Nat) (rp : Nat) (acc : List Nat),
    (∀ x ∈ l, x ≠ 34) →
    igqsLoop fuel l rp acc = .error .controlCharInString := by
  intro fuel
  induction fuel with
  | zero =>
      intro l rp acc _
      cases l <;> rfl
  | succ n ih =>
      intro l rp acc h
      cases l with
      | nil => rfl
      | cons c rest =>
          have hc : c ≠ 34 := h c (List.mem_cons_self c rest)
          have hrest : ∀ x ∈ rest, x ≠ 34 := fun x hx => h x (List.mem_cons_of_mem c hx)
          simp only [igqsLoop]
          by_cases h32 : c < 32
          · rw [if_pos h32]
          · rw [if_neg h32, if_neg hc]
            by_cases h39 : c = 39
            · rw [if_pos h39]
              cases rest with
              | nil => rfl
              | cons d rest2 =>
                  dsimp only
                  have hrest2 : ∀ x ∈ rest2, x ≠ 34 :=
                    fun x hx => hrest x (List.mem_cons_of_mem d hx)
                  by_cases hA : isAlphaB d = true
                  · rw [if_pos hA]
                    exact ih rest2 (rp + 2) (acc ++ [toLowerB d]) hrest2
                  · rw [if_neg hA]
                    by_cases hd39 : d = 39
                    · rw [if_pos hd39]
                      exact ih rest2 (rp + 2) (acc ++ [39]) hrest2
                    · rw [if_neg hd39]
                      exact ih (d :: rest2) (rp + 1) (acc ++ [39]) hrest
            · rw [if_neg h39]
              exact ih rest (rp + 1) (acc ++ [c]) hrest

/-- C9 (confirmed): when `Seen` has positioned `readPointer` at an opening
    double quote and no further `"` occurs before the end of the stored
    line, `GetQuotedString` raises `ControlCharInString`: the scan runs
    into the NUL terminator at `gcodeLineEnd` (or an earlier control
    character), which reads as a character below 0x20, rather than
    succeeding or scanning past the line terminator. -/
theorem c9_unterminated_quote (env : Env) (st : PState)
    (hrp : st.readPointer > 0)
    (hq : bufGet st.buffer st.readPointer.toNat = 34)
    (hnoq : ∀ j, st.readPointer.toNat < j → j < st.buffer.length →
      bufGet st.buffer j ≠ 34) :
    getQuotedString env st = .error .controlCharInString := by
  have hloop : igqsLoop (st.buffer.drop (st.readPointer.toNat + 1)).length
      (st.buffer.drop (st.readPointer.toNat + 1))
      (st.readPointer.toNat + 1) [] = .error .controlCharInString := by
    apply igqsLoop_no_quote
    intro x hx hx34
    obtain ⟨k, hk, hx'⟩ := List.mem_iff_getElem.mp hx
    rw [List.getElem_drop] at hx'
    have hklen : st.readPointer.toNat + 1 + k < st.buffer.length := by
      rw [List.length_drop] at hk
      omega
    apply hnoq (st.readPointer.toNat + 1 + k) (by omega) hklen
    rw [bufGet, List.getD_eq_getElem st.buffer 0 hklen, hx', hx34]
  simp only [getQuotedString, internalGetQuotedString]
  rw [if_pos hrp, if_pos hq, hloop]

/-- The parameter state for the C9 witness: `M587 S"AB` after
    `Seen('S')`, readPointer at the opening quote. -/
def stC9 : PState := (seen (mkCmdState "M587 S\"AB" 4) 83).2

/-- Witness for C9: the unterminated quoted string of `M587 S"AB` raises
    `ControlCharInString`. -/
theorem c9_unterminated_quote_witness :
    getQuotedString envC stC9 = .error .controlCharInString := by
  apply c9_unterminated_quote envC stC9 (by decide) (by decide)
  intro j h1 h2
  rw [show stC9.readPointer.toNat = 6 from by decide] at h1
  rw [show stC9.buffer.length = 9 from by decide] at h2
  have hj : j = 7 ∨ j = 8 := by omega
  rcases hj with rfl | rfl <;> decide

/-- Modelled from the spec: how many elements a colon-separated input
    supplies — repeatedly read a scalar of the element type, continuing
    while the byte after it is the list separator `:` (fuelled; `none`
    when the fuel runs out or a read raises). -/
def arraySupply {α : Type} (rd : List Nat → Nat → Except ParseErr (α × Nat))
    (buf : List Nat) : Nat → Nat → Option (List α × Nat)
  | 0, _ => none
  | fuel + 1, rp =>
      match rd buf rp with
      | .error _ => none
      | .ok (v, rp) =>
          if bufGet buf rp = 58 then
            match arraySupply rd buf fuel (rp + 1) with
            | some (vs, rpE) => some (v :: vs, rpE)
            | none => none
          else some ([v], rp)

theorem getArrayAux_of_supply {α : Type} (rd : List Nat → Nat → Except ParseErr (α × Nat))
    (buf : List Nat) (cap : Nat) :
    ∀ (fuel rp : Nat) (vs : List α) (rpE : Nat),
      arraySupply rd buf fuel rp = some (vs, rpE) →
      ∀ (rem : Nat) (acc : List α),
        (vs.length ≤ rem → getArrayAux rd buf cap rem rp acc = .ok (acc ++ vs, rpE))
        ∧ (rem < vs.length →
            getArrayAux rd buf cap rem rp acc = .error (.arrayTooLong cap)) := by
  intro fuel
  induction fuel with
  | zero => intro rp vs rpE h; exact absurd h (by simp [arraySupply])
  | succ n ih =>
      intro rp vs rpE h
      simp only [arraySupply] at h
      cases hrd : rd buf rp with
      | error e => rw [hrd] at h; cases h
      | ok vp =>
          obtain ⟨v, rp'⟩ := vp
          rw [hrd] at h
          dsimp only at h
          by_cases hcolon : bufGet buf rp' = 58
          · rw [if_pos hcolon] at h
            cases hsup : arraySupply rd buf n (rp' + 1) with
            | none => rw [hsup] at h; cases h
            | some p =>
                obtain ⟨vs', rpE'⟩ := p
                rw [hsup] at h
                dsimp only at h
                injection h with h1
                injection h1 with h2 h3
                subst h2
                subst h3
                intro rem acc
                cases rem with
                | zero =>
                    refine ⟨fun hle => absurd hle (by simp), fun _ => rfl⟩
                | succ rem =>
                    have hih := ih (rp' + 1) vs' rpE' hsup rem (acc ++ [v])
                    constructor
                    · intro hle
                      simp only [getArrayAux, hrd]
                      rw [if_pos hcolon, (hih.1 (by simpa using hle))]
                      simp
                    · intro hlt
                      simp only [getArrayAux, hrd]
                      rw [if_pos hcolon, (hih.2 (by simpa using hlt))]
          · rw [if_neg hcolon] at h
            injection h with h1
            injection h1 with h2 h3
            subst h2
            subst h3
            intro rem acc
            cases rem with
            | zero => refine ⟨fun hle => absurd hle (by simp), fun _ => rfl⟩
            | succ rem =>
                constructor
                · intro _
                  simp only [getArrayAux, hrd]
                  rw [if_neg hcolon]
                · intro hlt
                  exact absurd hlt (by simp)

/-- C8 (confirmed): for each array getter called after a successful
    `Seen`, with the colon-separated input supplying the elements `vs`
    (per the element reader's own semantics): more than `cap` elements
    raise `ArrayTooLong`; with `doPad`, exactly one element and `cap > 1`,
    that element is broadcast to all `cap` positions with the returned
    length unchanged; otherwise the returned length is the number of
    elements actually parsed.  `GetDriverIdArray` never pads. -/
theorem c8_array_pad (env : Env) (st : PState) (cap : Nat) (doPad : Bool) (fuel : Nat)
    (hrp : st.readPointer > 0) :
    (∀ vs rpE,
      arraySupply (readFloatValue env) st.buffer fuel st.readPointer.toNat = some (vs, rpE) →
      (cap < vs.length → getFloatArray env st cap doPad = .error (.arrayTooLong cap))
      ∧ (vs.length ≤ cap →
          (doPad = true ∧ vs.length = 1 ∧ 1 < cap →
            getFloatArray env st cap doPad
              = .ok (List.replicate cap (vs.headD 0), cap, { st with readPointer := -1 }))
          ∧ (¬(doPad = true ∧ vs.length = 1 ∧ 1 < cap) →
            getFloatArray env st cap doPad
              = .ok (vs, vs.length, { st with readPointer := -1 }))))
    ∧ (∀ vs rpE,
      arraySupply (readIValue env) st.buffer fuel st.readPointer.toNat = some (vs, rpE) →
      (cap < vs.length → getIntArray env st cap doPad = .error (.arrayTooLong cap))
      ∧ (vs.length ≤ cap →
          (doPad = true ∧ vs.length = 1 ∧ 1 < cap →
            getIntArray env st cap doPad
              = .ok (List.replicate cap (vs.headD 0), cap, { st with readPointer := -1 }))
          ∧ (¬(doPad = true ∧ vs.length = 1 ∧ 1 < cap) →
            getIntArray env st cap doPad
              = .ok (vs, vs.length, { st with readPointer := -1 }))))
    ∧ (∀ vs rpE,
      arraySupply (readUIValue env) st.buffer fuel st.readPointer.toNat = some (vs, rpE) →
      (cap < vs.length → getUnsignedArray env st cap doPad = .error (.arrayTooLong cap))
      ∧ (vs.length ≤ cap →
          (doPad = true ∧ vs.length = 1 ∧ 1 < cap →
            getUnsignedArray env st cap doPad
              = .ok (List.replicate cap (vs.headD 0), cap, { st with readPointer := -1 }))
          ∧ (¬(doPad = true ∧ vs.length = 1 ∧ 1 < cap) →
            getUnsignedArray env st cap doPad
              = .ok (vs, vs.length, { st with readPointer := -1 }))))
    ∧ (∀ vs rpE,
      arraySupply (readDriverIdValue env) st.buffer fuel st.readPointer.toNat
          = some (vs, rpE) →
      (cap < vs.length → getDriverIdArray env st cap = .error (.arrayTooLong cap))
      ∧ (vs.length ≤ cap →
          getDriverIdArray env st cap
            = .ok (vs, vs.length, { st with readPointer := -1 }))) := by
  refine ⟨?_, ?_, ?_, ?_⟩
  · intro vs rpE h
    have hcom := getArrayAux_of_supply (readFloatValue env) st.buffer cap fuel
      st.readPointer.toNat vs rpE h cap []
    constructor
    · intro hlt
      simp only [getFloatArray, if_pos hrp]
      rw [hcom.2 hlt]
    · intro hle
      have hok := hcom.1 hle
      rw [List.nil_append] at hok
      constructor
      · rintro ⟨hdp, hlen1, hcap⟩
        simp only [getFloatArray, if_pos hrp]
        rw [hok]
        simp only [padArray]
        rw [if_pos (by simp [hdp, hlen1, hcap])]
      · intro hnot
        simp only [getFloatArray, if_pos hrp]
        rw [hok]
        simp only [padArray]
        rw [if_neg (by
          simp only [Bool.and_eq_true, decide_eq_true_eq]
          rintro ⟨⟨h1, h2⟩, h3⟩
          exact hnot ⟨h1, h2, h3⟩)]
  · intro vs rpE h
    have hcom := getArrayAux_of_supply (readIValue env) st.buffer cap fuel
      st.readPointer.toNat vs rpE h cap []
    constructor
    · intro hlt
      simp only [getIntArray, if_pos hrp]
      rw [hcom.2 hlt]
    · intro hle
      have hok := hcom.1 hle
      rw [List.nil_append] at hok
      constructor
      · rintro ⟨hdp, hlen1, hcap⟩
        simp only [getIntArray, if_pos hrp]
        rw [hok]
        simp only [padArray]
        rw [if_pos (by simp [hdp, hlen1, hcap])]
      · intro hnot
        simp only [getIntArray, if_pos hrp]
        rw [hok]
        simp only [padArray]
        rw [if_neg (by
          simp only [Bool.and_eq_true, decide_eq_true_eq]
          rintro ⟨⟨h1, h2⟩, h3⟩
          exact hnot ⟨h1, h2, h3⟩)]
  · intro vs rpE h
    have hcom := getArrayAux_of_supply (readUIValue env) st.buffer cap fuel
      st.readPointer.toNat vs rpE h cap []
    constructor
    · intro hlt
      simp only [getUnsignedArray, if_pos hrp]
      rw [hcom.2 hlt]
    · intro hle
      have hok := hcom.1 hle
      rw [List.nil_append] at hok
      constructor
      · rintro ⟨hdp, hlen1, hcap⟩
        simp only [getUnsignedArray, if_pos hrp]
        rw [hok]
        simp only [padArray]
        rw [if_pos (by simp [hdp, hlen1, hcap])]
      · intro hnot
        simp only [getUnsignedArray, if_pos hrp]
        rw [hok]
        simp only [padArray]
        rw [if_neg (by
          simp only [Bool.and_eq_true, decide_eq_true_eq]
          rintro ⟨⟨h1, h2⟩, h3⟩
          exact hnot ⟨h1, h2, h3⟩)]
  · intro vs rpE h
    have hcom := getArrayAux_of_supply (readDriverIdValue env) st.buffer cap fuel
      st.readPointer.toNat vs rpE h cap []
    constructor
    · intro hlt
      simp only [getDriverIdArray, if_pos hrp]
      rw [hcom.2 hlt]
    · intro hle
      have hok := hcom.1 hle
      rw [List.nil_append] at hok
      simp only [getDriverIdArray, if_pos hrp]
      rw [hok]

/-- The parameter state of the C8 witness: `G1 X5` after `Seen('X')`. -/
def stC8 : PState := (seen (mkCmdState "G1 X5" 2) 88).2

/-- Witness for C8: `GetFloatArray` with capacity 4 and `doPad` on the
    single-element parameter of `G1 X5` broadcasts the (mis-)read single
    value to all four positions, with the returned length still 4. -/
theorem c8_array_pad_witness :
    getFloatArray envC stC8 4 true
      = .ok ([0, 0, 0, 0], 4, { stC8 with readPointer := -1 }) := by
  have h := (((c8_array_pad envC stC8 4 true 2 (by decide)).1 [0] 5
    (by decide)).2 (by decide)).1 ⟨rfl, rfl, by decide⟩
  rw [h]
  decide

/-- The parameter state of the C5 counterexample: `M587 S"AB" X1` after
    `Seen('S')` (readPointer 6, at the opening quote). -/
def stC5 : PState := (seen (mkCmdState "M587 S\"AB\" X1" 4) 83).2

/-- C5, counterexample: `GetQuotedString` returns successfully (string
    `AB`) but leaves `readPointer` at 11 — one past the character after
    the closing quote — not −1 as the claim states for every typed
    getter. -/
theorem c5_counterexample :
    (getQuotedString envC stC5).map (fun p => (p.1, p.2.readPointer))
      = .ok (strBytes "AB", 11)
    ∧ (11 : Int) ≠ -1 := by
  decide

/-- C5 (amended): all typed getters raise `Internal` when called with
    `readPointer ≤ 0`, except `GetUnprecedentedString`, which overwrites
    `readPointer` and so ignores its incoming value.  The numeric, driver,
    array, IP and MAC getters reset `readPointer` to −1 on success;
    `GetQuotedString` and `GetReducedString` instead leave it nonnegative
    (past the consumed text), and `GetPossiblyQuotedString` never returns
    successfully at all. -/
theorem c5_getters_amended (env : Env) (st : PState) (cap : Nat) (doPad : Bool)
    (allowEmpty : Bool) :
    (st.readPointer ≤ 0 →
      getFValue env st = .error .internalError
      ∧ getIValue env st = .error .internalError
      ∧ getUIValue env st = .error .internalError
      ∧ getDriverId env st = .error .internalError
      ∧ getFloatArray env st cap doPad = .error .internalError
      ∧ getIntArray env st cap doPad = .error .internalError
      ∧ getUnsignedArray env st cap doPad = .error .internalError
      ∧ getDriverIdArray env st cap = .error .internalError
      ∧ getIPAddress env st = .error .internalError
      ∧ getMacAddress env st = .error .internalError
      ∧ getQuotedString env st = .error .internalError
      ∧ getPossiblyQuotedString env st = .error .internalError
      ∧ getReducedString st = .error .internalError)
    ∧ (∀ v st', getFValue env st = .ok (v, st') → st'.readPointer = -1)
    ∧ (∀ v st', getIValue env st = .ok (v, st') → st'.readPointer = -1)
    ∧ (∀ v st', getUIValue env st = .ok (v, st') → st'.readPointer = -1)
    ∧ (∀ v st', getDriverId env st = .ok (v, st') → st'.readPointer = -1)
    ∧ (∀ a l st', getFloatArray env st cap doPad = .ok (a, l, st') → st'.readPointer = -1)
    ∧ (∀ a l st', getIntArray env st cap doPad = .ok (a, l, st') → st'.readPointer = -1)
    ∧ (∀ a l st', getUnsignedArray env st cap doPad = .ok (a, l, st') →
        st'.readPointer = -1)
    ∧ (∀ a l st', getDriverIdArray env st cap = .ok (a, l, st') → st'.readPointer = -1)
    ∧ (∀ v st', getIPAddress env st = .ok (v, st') → st'.readPointer = -1)
    ∧ (∀ v st', getMacAddress env st = .ok (v, st') → st'.readPointer = -1)
    ∧ (∀ r, getPossiblyQuotedString env st ≠ .ok r)
    ∧ (∀ s st', getQuotedString env st = .ok (s, st') → 0 ≤ st'.readPointer)
    ∧ (∀ s st', getReducedString st = .ok (s, st') → 0 ≤ st'.readPointer)
    ∧ (∀ x y, getUnprecedentedString env { st with readPointer := x } allowEmpty
        = getUnprecedentedString env { st with readPointer := y } allowEmpty) := by
  refine ⟨?_, ?_, ?_, ?_, ?_, ?_, ?_, ?_, ?_, ?_, ?_, ?_, ?_, ?_, ?_⟩
  · intro h
    have hng : ¬ st.readPointer > 0 := by omega
    refine ⟨?_, ?_, ?_, ?_, ?_, ?_, ?_, ?_, ?_, ?_, ?_, ?_, ?_⟩
    · simp only [getFValue]; rw [if_neg hng]
    · simp only [getIValue]; rw [if_neg hng]
    · simp only [getUIValue]; rw [if_neg hng]
    · simp only [getDriverId]; rw [if_neg hng]
    · simp only [getFloatArray]; rw [if_neg hng]
    · simp only [getIntArray]; rw [if_neg hng]
    · simp only [getUnsignedArray]; rw [if_neg hng]
    · simp only [getDriverIdArray]; rw [if_neg hng]
    · simp only [getIPAddress]; rw [if_pos h]
    · simp only [getMacAddress]; rw [if_pos h]
    · simp only [getQuotedString]; rw [if_neg hng]
    · simp only [getPossiblyQuotedString]; rw [if_neg hng]
    · simp only [getReducedString]; rw [if_neg hng]
  · intro v st' hsucc
    simp only [getFValue] at hsucc
    split at hsucc
    · split at hsucc
      · cases hsucc
      · injection hsucc with h1
        injection h1 with h2 h3
        rw [← h3]
    · cases hsucc
  · intro v st' hsucc
    simp only [getIValue] at hsucc
    split at hsucc
    · split at hsucc
      · cases hsucc
      · injection hsucc with h1
        injection h1 with h2 h3
        rw [← h3]
    · cases hsucc
  · intro v st' hsucc
    simp only [getUIValue] at hsucc
    split at hsucc
    · split at hsucc
      · cases hsucc
      · injection hsucc with h1
        injection h1 with h2 h3
        rw [← h3]
    · cases hsucc
  · intro v st' hsucc
    simp only [getDriverId] at hsucc
    split at hsucc
    · split at hsucc
      · cases hsucc
      · injection hsucc with h1
        injection h1 with h2 h3
        rw [← h3]
    · cases hsucc
  · intro a l st' hsucc
    simp only [getFloatArray] at hsucc
    split at hsucc
    · split at hsucc
      · cases hsucc
      · injection hsucc with h1
        injection h1 with h2 h3
        injection h3 with h4 h5
        rw [← h5]
    · cases hsucc
  · intro a l st' hsucc
    simp only [getIntArray] at hsucc
    split at hsucc
    · split at hsucc
      · cases hsucc
      · injection hsucc with h1
        injection h1 with h2 h3
        injection h3 with h4 h5
        rw [← h5]
    · cases hsucc
  · intro a l st' hsucc
    simp only [getUnsignedArray] at hsucc
    split at hsucc
    · split at hsucc
      · cases hsucc
      · injection hsucc with h1
        injection h1 with h2 h3
        injection h3 with h4 h5
        rw [← h5]
    · cases hsucc
  · intro a l st' hsucc
    simp only [getDriverIdArray] at hsucc
    split at hsucc
    · split at hsucc
      · cases hsucc
      · injection hsucc with h1
        injection h1 with h2 h3
        injection h3 with h4 h5
        rw [← h5]
    · cases hsucc
  · intro v st' hsucc
    simp only [getIPAddress] at hsucc
    split at hsucc
    · cases hsucc
    · split at hsucc
      · cases hsucc
      · split at hsucc
        · cases hsucc
        · injection hsucc with h1
          injection h1 with h2 h3
          rw [← h3]
  · intro v st' hsucc
    simp only [getMacAddress] at hsucc
    split at hsucc
    · cases hsucc
    · split at hsucc
      · cases hsucc
      · split at hsucc
        · cases hsucc
        · injection hsucc with h1
          injection h1 with h2 h3
          rw [← h3]
  · intro r hsucc
    simp only [getPossiblyQuotedString] at hsucc
    split at hsucc
    · split at hsucc
      · cases hsucc
      · cases hsucc
    · cases hsucc
  · intro s st' hsucc
    simp only [getQuotedString] at hsucc
    split at hsucc
    · split at hsucc
      · split at hsucc
        · cases hsucc
        · injection hsucc with h1
          injection h1 with h2 h3
          rw [← h3]
          exact Int.natCast_nonneg _
      · split at hsucc
        · split at hsucc
          · cases hsucc
          · injection hsucc with h1
            injection h1 with h2 h3
            rw [← h3]
            exact Int.natCast_nonneg _
        · cases hsucc
    · cases hsucc
  · intro s st' hsucc
    simp only [getReducedString] at hsucc
    split at hsucc
    · split at hsucc
      · cases hsucc
      · split at hsucc
        · cases hsucc
        · injection hsucc with h1
          injection h1 with h2 h3
          rw [← h3]
          exact Int.natCast_nonneg _
    · cases hsucc
  · intro x y
    rfl

/-- Witness for C5 (amended): with no pending read `GetFValue` raises
    `Internal`, and on the successful read of `G1 X5` it resets
    `readPointer` to −1. -/
theorem c5_getters_amended_witness :
    getFValue envC { stC8 with readPointer := -1 } = .error .internalError
    ∧ (getFValue envC stC8).map (fun p => p.2.readPointer) = .ok (-1) := by
  constructor
  · exact ((c5_getters_amended envC { stC8 with readPointer := -1 } 4 true
      false).1 (by decide)).1
  · have hev : getFValue envC stC8 = .ok (0, { stC8 with readPointer := -1 }) := by
      decide
    have hres := (c5_getters_amended envC stC8 4 true false).2.1 0
      { stC8 with readPointer := -1 } hev
    rw [hev]
    exact congrArg Except.ok hres
